import Mathlib

/-!
Verification of the tour-feedback ingestion and aggregation pipeline.

The development shallowly embeds the program's core:
  * `utils.py`  — `parse_file` / `parse_csv` / `parse_json` / `parse_txt`
  * `feedback_processor.py` — feedback-column inference, the per-row
    enrichment loop, `generate_category_summaries`,
    `generate_improvement_suggestions`, `process_feedback`
  * `app.py` — the chunk-and-merge accumulation loop

External libraries (pandas `read_csv`, `json.loads`, `ast.literal_eval`,
the Gemini capability) are modelled as oracle parameters returning
`Except String _`; the Python code around them is translated faithfully,
with Python exceptions made explicit as `Except PyErr _`.
-/

/-- Python exception classes that the embedded code can raise. -/
inductive PyErr where
  | valueError (msg : String)
  | attributeError (msg : String)
  | keyError (msg : String)
  | typeError (msg : String)
  | pandasError (msg : String)
deriving DecidableEq

/-- JSON-like Python values: the payloads produced by `json.loads` /
`ast.literal_eval` and by the enrichment capability, and the cell values
stored in DataFrames.  Numbers are modelled as integers (no claim involves
float arithmetic); pandas missing values (NaN) are conflated with `null`. -/
inductive JsonVal where
  | str (s : String)
  | num (n : Int)
  | bool (b : Bool)
  | null
  | arr (items : List JsonVal)
  | obj (fields : List (String × JsonVal))

/-- Column labels of a pandas DataFrame: either strings (from headers or
dict keys) or integers (the default RangeIndex columns that
`pd.DataFrame` assigns to a list of scalars). -/
inductive ColKey where
  | str (s : String)
  | nat (n : Nat)
deriving DecidableEq

/-- A pandas DataFrame: ordered column labels and ordered rows, each row a
list of cells aligned with `cols`. -/
structure Frame where
  cols : List ColKey
  rows : List (List JsonVal)

/-- Characters Python's `str.isspace` / `str.strip` treat as whitespace
(the ASCII portion, which is all the source ever meets). -/
def pyIsSpaceChar (c : Char) : Bool :=
  c = ' ' || c = '\t' || c = '\n' || c = '\r' || c = '\x0b' || c = '\x0c'

/-- Python `str.isspace`: true iff the string is nonempty and all whitespace. -/
def pyIsSpace (s : String) : Bool :=
  !s.toList.isEmpty && s.toList.all pyIsSpaceChar

/-- The skip test of the row loop: `not feedback_text or feedback_text.isspace()`. -/
def pyBlank (s : String) : Bool :=
  s == "" || pyIsSpace s

/-- Python `str.lower` (ASCII suffices for everything the source compares). -/
def pyLower (s : String) : String :=
  String.mk (s.toList.map Char.toLower)

/-- Python `str.strip`: drop leading and trailing whitespace. -/
def pyStrip (s : String) : String :=
  String.mk (((s.toList.dropWhile pyIsSpaceChar).reverse.dropWhile pyIsSpaceChar).reverse)

/-- Split a character list on newline characters, Python `str.split('\n')`:
always returns at least one (possibly empty) piece. -/
def splitNl : List Char → List (List Char)
  | [] => [[]]
  | c :: cs =>
    match splitNl cs with
    | [] => [[]]
    | l :: ls => if c = '\n' then [] :: l :: ls else (c :: l) :: ls

theorem splitNl_ne_nil (cs : List Char) : splitNl cs ≠ [] := by
  cases cs with
  | nil => simp [splitNl]
  | cons c cs =>
    simp only [splitNl]
    cases h : splitNl cs with
    | nil => simp
    | cons l ls => by_cases hc : c = '\n' <;> simp [hc]

/-- Python `s.split('\n')` on a string. -/
def pySplitNl (s : String) : List String :=
  (splitNl s.toList).map String.mk

theorem pySplitNl_ne_nil (s : String) : pySplitNl s ≠ [] := by
  simp [pySplitNl, splitNl_ne_nil]

/-- The line extraction of `parse_txt` (and of `display` paths):
`content.strip().split('\n')`, strip each line, drop blank lines. -/
def pyLines (content : String) : List String :=
  ((pySplitNl (pyStrip content)).map pyStrip).filter (fun l => l ≠ "")

/-- Python `str.endsWith`, via character lists. -/
def pyEndsWith (s suffix : String) : Bool :=
  suffix.toList.isSuffixOf s.toList

/-- Python `str.replace('_', ' ')`, used when a category name is shown. -/
def pyReplaceUnderscore (s : String) : String :=
  String.mk (s.toList.map (fun c => if c = '_' then ' ' else c))

mutual

/-- Python `repr` of a JSON-like value, as used inside `str` of a list. -/
def pyRepr : JsonVal → String
  | .str s => "'" ++ s ++ "'"
  | .num n => toString n
  | .bool b => if b then "True" else "False"
  | .null => "None"
  | .arr items => "[" ++ pyReprList items ++ "]"
  | .obj fields => "\x7b" ++ pyReprObj fields ++ "\x7d"

def pyReprList : List JsonVal → String
  | [] => ""
  | [v] => pyRepr v
  | v :: v' :: vs => pyRepr v ++ ", " ++ pyReprList (v' :: vs)

def pyReprObj : List (String × JsonVal) → String
  | [] => ""
  | [(k, v)] => "'" ++ k ++ "': " ++ pyRepr v
  | (k, v) :: p :: ps => "'" ++ k ++ "': " ++ pyRepr v ++ ", " ++ pyReprObj (p :: ps)

end

/-- Python `str` of a cell value, as in `str(row[feedback_column])`.
`null` covers both `None` and pandas NaN; we render it `"None"` (the
distinction from `"nan"` never matters: both are non-blank). -/
def pyStr : JsonVal → String
  | .str s => s
  | v => pyRepr v

/-- Python hashability of a JSON-like value (dict/Counter keys must be
hashable; lists and dicts are not). -/
def jsonHashable : JsonVal → Bool
  | .str _ => true
  | .num _ => true
  | .bool _ => true
  | .null => true
  | .arr _ => false
  | .obj _ => false

/-- Python `==` on hashable JSON-like values (`True == 1` in Python);
unhashable values never serve as dict or Counter keys in the embedded
code, so the `arr`/`obj` diagonal is irrelevant and returns `false`. -/
def jsonBeq : JsonVal → JsonVal → Bool
  | .str a, .str b => a == b
  | .num a, .num b => a == b
  | .bool a, .bool b => a == b
  | .bool a, .num b => (if a then (1 : Int) else 0) == b
  | .num a, .bool b => a == (if b then (1 : Int) else 0)
  | .null, .null => true
  | _, _ => false

/-- First-match association lookup; Python dicts have unique keys, so
objects reaching the embedded code are key-unique and first-match agrees
with dict lookup. -/
def jLookup (kvs : List (String × JsonVal)) (k : String) : Option JsonVal :=
  match kvs.find? (fun p => p.1 == k) with
  | some p => some p.2
  | none => none

/-- Python `dict.get(k, default)` on an object's fields. -/
def dictGet (kvs : List (String × JsonVal)) (k : String) (dflt : JsonVal) : JsonVal :=
  match jLookup kvs k with
  | some v => v
  | none => dflt

/-- Index of the first column with the given label (`df[col]` lookup). -/
def colIndex (cols : List ColKey) (k : ColKey) : Option Nat :=
  cols.findIdx? (fun c => c = k)

/-- The value of the given row at a column label, `row[feedback_column]`. -/
def rowValue (cols : List ColKey) (row : List JsonVal) (k : ColKey) : JsonVal :=
  match colIndex cols k with
  | some ci => row.getD ci .null
  | none => .null

/-- Cell of a frame at row index `i` and column label `k`, when both exist. -/
def getCellByKey (f : Frame) (i : Nat) (k : ColKey) : Option JsonVal :=
  (f.rows.get? i).bind fun row => (colIndex f.cols k).map fun ci => row.getD ci .null

/-- pandas `df.empty`: true iff either axis has length zero. -/
def Frame.isEmpty (f : Frame) : Bool :=
  f.rows.isEmpty || f.cols.isEmpty

/-- A one-column frame named `feedback`, one row per entry:
`pd.DataFrame({'feedback': xs})`. -/
def feedbackFrame (xs : List String) : Frame :=
  { cols := [.str "feedback"], rows := xs.map (fun s => [.str s]) }

/-! ## Embedding of `utils.py` (the Ingestion Normalizer)

The pandas CSV reader and the two Python JSON readers are external
libraries; they enter as oracle parameters.  Everything downstream of them
is translated from the source. -/

/-- External parsing primitives used by `utils.py`: the net outcome of
`parse_csv`'s sniff-and-read attempts, the plain `pd.read_csv` re-parse in
`parse_txt`, `json.loads`, and `ast.literal_eval`. -/
structure Oracles where
  readCsv : String → Except String Frame
  readCsvPlain : String → Except String Frame
  jsonLoads : String → Except String JsonVal
  literalEval : String → Except String JsonVal

def isObjVal : JsonVal → Bool
  | .obj _ => true
  | _ => false

def isArrVal : JsonVal → Bool
  | .arr _ => true
  | _ => false

def isStrVal : JsonVal → Bool
  | .str _ => true
  | _ => false

/-- Values pandas accepts as plain scalars in a one-column DataFrame. -/
def isScalarVal : JsonVal → Bool
  | .str _ => true
  | .num _ => true
  | .bool _ => true
  | .null => true
  | _ => false

def asObj : JsonVal → List (String × JsonVal)
  | .obj kvs => kvs
  | _ => []

def asArr : JsonVal → List JsonVal
  | .arr xs => xs
  | _ => []

/-- Column labels of `pd.DataFrame(list-of-dicts)`: keys in first-seen
order across the records. -/
def unionKeys (ds : List (List (String × JsonVal))) : List String :=
  ds.foldl (fun acc kvs => acc ++ ((kvs.map Prod.fst).filter (fun k => !acc.contains k))) []

/-- The `pd.DataFrame(list-of-dicts)` constructor: columns are the keys in
first-seen order, missing keys become null. -/
def frameOfDicts (ds : List (List (String × JsonVal))) : Frame :=
  let ks := unionKeys ds
  { cols := ks.map ColKey.str,
    rows := ds.map (fun kvs => ks.map (fun k => dictGet kvs k .null)) }

/-- The generic `pd.DataFrame(list)` constructor as the source applies it
to a JSON list: records give keyed columns; scalars give a single
RangeIndex column labelled `0`; lists of lists give positional columns;
mixed shapes raise. -/
def pdDataFrameOfList (items : List JsonVal) : Except PyErr Frame :=
  if items.isEmpty then .ok { cols := [], rows := [] }
  else if items.all isObjVal then .ok (frameOfDicts (items.map asObj))
  else if items.all isScalarVal then
    .ok { cols := [.nat 0], rows := items.map (fun v => [v]) }
  else if items.all isArrVal then
    let m := (items.map (fun v => (asArr v).length)).foldl max 0
    .ok { cols := (List.range m).map ColKey.nat,
          rows := items.map (fun v => (List.range m).map (fun j => (asArr v).getD j .null)) }
  else .error (.pandasError "DataFrame constructor not properly called")

/-- The fixed preference list of `parse_json` for dict-with-lists input
(`feedback_related_keys` in the source). -/
def preferredKeys : List String := ["feedback", "reviews", "comments", "responses", "data"]

/-- The keys of an object whose values are lists (`list_keys`). -/
def listKeysOf (kvs : List (String × JsonVal)) : List String :=
  (kvs.filter (fun p => isArrVal p.2)).map Prod.fst

/-- Python `max(list_keys, key=lambda k: len(content[k]), default=None)`:
the first key of maximal list length. -/
def pyMaxByLen (kvs : List (String × JsonVal)) : List String → Option String
  | [] => none
  | k :: rest =>
    some (rest.foldl
      (fun best k' =>
        if (asArr (dictGet kvs best .null)).length < (asArr (dictGet kvs k' .null)).length
        then k' else best) k)

/-- Structural dispatch of `parse_json` once a JSON value is in hand
(utils.py lines 110–147). -/
def jsonDispatch : JsonVal → Except PyErr Frame
  | .arr items =>
    if items.all isStrVal then
      .ok (feedbackFrame (items.map (fun v => match v with | .str s => s | _ => "")))
    else pdDataFrameOfList items
  | .obj kvs =>
    let listKeys := listKeysOf kvs
    if listKeys.isEmpty then .ok (frameOfDicts [kvs])
    else
      match preferredKeys.find? (fun k => listKeys.contains k) with
      | some k => pdDataFrameOfList (asArr (dictGet kvs k .null))
      | none =>
        match pyMaxByLen kvs listKeys with
        | none => .ok (frameOfDicts [kvs])
        | some mk =>
          if mk ≠ "" && !(asArr (dictGet kvs mk .null)).isEmpty then
            pdDataFrameOfList (asArr (dictGet kvs mk .null))
          else .ok (frameOfDicts [kvs])
  | v => .ok (feedbackFrame [pyStr v])

/-- Post-dispatch empty check of `parse_json` (lines 149–152). -/
def jsonFinalize (df : Frame) : Frame :=
  if df.isEmpty then
    feedbackFrame ["JSON parsing resulted in no usable data - please check format"]
  else df

/-- Outcome of `parse_json` once a JSON value was obtained: a dispatch
exception is caught by the function's outer handler. -/
def parseJsonDispatched (v : JsonVal) : Frame × String :=
  match jsonDispatch v with
  | .ok df => (jsonFinalize df, "json")
  | .error _ =>
    (feedbackFrame ["Error in JSON parsing - this is a placeholder entry"], "json with parsing error")

/-- Embedding of `parse_json`.  When both JSON readers fail, the source
falls back to one row per raw line of the stripped content (no per-line
strip, no blank filter) with label "json-like text"; the further
"invalid json" fallback guards a constructor that cannot fail and is
unreachable. -/
def parse_json (content : String) (o : Oracles) : Frame × String :=
  match o.jsonLoads content with
  | .ok v => parseJsonDispatched v
  | .error _ =>
    match o.literalEval content with
    | .ok v => parseJsonDispatched v
    | .error _ => (feedbackFrame (pySplitNl (pyStrip content)), "json-like text")

/-- Embedding of `parse_csv`: the oracle is the net outcome of the
sniffing and the three read attempts; an empty result is replaced by the
placeholder, a read failure by the error placeholder. -/
def parse_csv (content : String) (o : Oracles) : Frame × String :=
  match o.readCsv content with
  | .ok df =>
    if df.isEmpty then
      (feedbackFrame ["CSV parsing resulted in no data - please check file format"], "csv")
    else (df, "csv")
  | .error _ =>
    (feedbackFrame ["Error in CSV parsing - this is a placeholder entry"], "csv with parsing error")

/-- The CSV-like test of `parse_txt`:
`any(',' in line for line in lines[:10]) and len(lines) > 1`. -/
def csvLikeCond (ls : List String) : Bool :=
  (ls.take 10).any (fun l => l.toList.contains ',') && decide (1 < ls.length)

/-- Tail of `parse_txt`: build the one-feedback-per-line frame; the guard
at utils.py line 194 replaces it by a sample entry when it is empty. -/
def mkTextResult (ls : List String) : Frame × String :=
  let df := feedbackFrame ls
  if !(df.cols.contains (.str "feedback")) || df.isEmpty then
    (feedbackFrame ["Sample feedback entry - please replace with actual data"], "text")
  else (df, "text")

/-- The line list `parse_txt` works on: the stripped non-blank lines, with
the placeholder substituted when none remain (utils.py lines 167–175). -/
def txtLines (content : String) : List String :=
  let lines0 := pyLines content
  if lines0.isEmpty then ["No content found in file"] else lines0

/-- Embedding of `parse_txt`: split into stripped non-blank lines (with a
placeholder when none remain), optionally re-parse the raw content as CSV
when the CSV-like test fires, recomputing the lines (without the
placeholder substitution) when that re-parse fails. -/
def parse_txt (content : String) (o : Oracles) : Frame × String :=
  let lines := txtLines content
  if csvLikeCond lines then
    match o.readCsvPlain content with
    | .ok df => (df, "csv-like text")
    | .error _ => mkTextResult (pyLines content)
  else mkTextResult lines

/-- Embedding of `parse_file`: dispatch on the lowercased extension,
falling back to plain text for unknown extensions.  The surrounding
`except` of the source catches exceptions escaping the per-format parsers;
each embedded parser is total, so that handler has nothing left to catch. -/
def parse_file (content ext : String) (o : Oracles) : Frame × String :=
  let e := pyLower ext
  if e = "csv" then parse_csv content o
  else if e = "json" then parse_json content o
  else parse_txt content o

/-! ## Embedding of `feedback_processor.py` (Column Inference + Aggregation)

The Gemini round-trips — `generate_content` followed by the regex/JSON
extraction — are modelled as oracles returning `Except String _`: a
success is the extracted structured value, an error is any exception along
the way (network failure, no JSON found, `json.loads` failure). -/

/-- The external enrichment capability: per-row classification, per-category
summarization, per-category suggestion generation. -/
structure Capability where
  classify : String → Except String JsonVal
  summarize : String → List String → Except String String
  suggest : String → List String → Except String JsonVal

/-- The default classification result substituted on any classification
failure (feedback_processor.py lines 67–71). -/
def defaultClassification : JsonVal :=
  .obj [("sentiment", .str "neutral"), ("category", .str "other"),
        ("key_points", .arr [.str "Could not extract key points"])]

/-- Embedding of `process_single_feedback`: the capability's answer, or
the default result when anything in the round-trip fails. -/
def process_single_feedback (feedback_text : String) (cap : Capability) : JsonVal :=
  match cap.classify feedback_text with
  | .ok v => v
  | .error _ => defaultClassification

/-- The fixed name vocabulary used to recognize a feedback column
(`potential_columns` in the source). -/
def potentialColumns : List String :=
  ["feedback", "review", "comment", "text", "description",
   "response", "comments", "reviews", "message", "content"]

/-- First pass of column inference: scan the column labels and return the
first whose lowercased name is in the vocabulary.  Python calls
`col.lower()` on each label it scans, so a non-string label reached before
a match raises `AttributeError`. -/
def findVocabCol : List ColKey → Except PyErr (Option ColKey)
  | [] => .ok none
  | .str s :: rest =>
    if potentialColumns.contains (pyLower s) then .ok (some (.str s))
    else findVocabCol rest
  | .nat _ :: _ => .error (.attributeError "int object has no attribute lower")

/-- pandas dtype test `df[col].dtype == 'object'`: a column holds dtype
`object` when some cell is a string, list or dict, or when every cell is
missing (an all-`None` object column); purely numeric or boolean columns
get numeric/bool dtypes. -/
def dtypeIsObject (cells : List JsonVal) : Bool :=
  cells.any (fun c => match c with | .str _ => true | .arr _ => true | .obj _ => true | _ => false)
  || cells.all (fun c => match c with | .null => true | _ => false)

/-- The cells of the column with the given label. -/
def colCells (f : Frame) (k : ColKey) : List JsonVal :=
  f.rows.map (fun row => rowValue f.cols row k)

/-- Python `df[col].dropna().iloc[0] if not df[col].dropna().empty else ""`:
the first non-null cell of a column, or the empty string. -/
def firstNonNull (cells : List JsonVal) : JsonVal :=
  match cells.find? (fun c => match c with | .null => false | _ => true) with
  | some v => v
  | none => .str ""

/-- The text heuristic applied to one column in the second inference pass:
dtype is `object` and the first non-null sample is a string longer than 10
characters. -/
def textColPred (f : Frame) (k : ColKey) : Bool :=
  dtypeIsObject (colCells f k)
  && (match firstNonNull (colCells f k) with
      | .str s => decide (10 < s.toList.length)
      | _ => false)

/-- Second pass of column inference: the first column passing the text
heuristic (feedback_processor.py lines 229–236). -/
def findTextCol (f : Frame) : List ColKey → Option ColKey
  | [] => none
  | k :: rest => if textColPred f k then some k else findTextCol f rest

/-- Embedding of the feedback-column inference inside `process_feedback`
(lines 214–243): vocabulary match, then text heuristic, then the first
column, and `ValueError` when no column exists at all. -/
def infer_feedback_column (df : Frame) : Except PyErr ColKey :=
  match findVocabCol df.cols with
  | .error e => .error e
  | .ok (some c) => .ok c
  | .ok none =>
    match findTextCol df df.cols with
    | some c => .ok c
    | none =>
      match df.cols.head? with
      | some c => .ok c
      | none => .error (.valueError "Could not identify a suitable feedback column in the data")

/-- A `collections.Counter`: insertion-ordered key/count pairs. -/
abbrev Counter := List (JsonVal × Nat)

/-- Increment a Counter at a key, appending a fresh entry for a new key;
the key must be hashable or Python raises `TypeError`. -/
def bumpCount : Counter → JsonVal → Counter
  | [], v => [(v, 1)]
  | (k, n) :: rest, v =>
    if jsonBeq k v then (k, n + 1) :: rest else (k, n) :: bumpCount rest v

def counterIncr (c : Counter) (v : JsonVal) : Except PyErr Counter :=
  if jsonHashable v then .ok (bumpCount c v) else .error (.typeError "unhashable type")

/-- The per-category sample buffers, `category_data`: a fixed-key dict from
the seven known categories to the raw texts collected for each. -/
abbrev CatData := List (String × List String)

/-- The seven categories initialised in `category_data`. -/
def knownCategories : List String :=
  ["accommodation", "transportation", "food_dining", "activities_guides",
   "booking_process", "value_for_money", "other"]

def initCatData : CatData := knownCategories.map (fun c => (c, []))

/-- Python `category_data[category].append(feedback_text)`: `TypeError`
for an unhashable key, `KeyError` for a hashable key that is not one of
the dict's (string) keys. -/
def catDataAppend (cd : CatData) (category : JsonVal) (text : String) : Except PyErr CatData :=
  if jsonHashable category then
    match category with
    | .str k =>
      if (cd.map Prod.fst).contains k then
        .ok (cd.map (fun p => if p.1 = k then (p.1, p.2 ++ [text]) else p))
      else .error (.keyError k)
    | _ => .error (.keyError "non-string category")
  else .error (.typeError "unhashable type")

/-- pandas `df[key] = scalar`: overwrite the column when the label exists,
otherwise append a new column, broadcasting the value to every row. -/
def setColumnConst (f : Frame) (k : ColKey) (v : JsonVal) : Frame :=
  match colIndex f.cols k with
  | some ci => { f with rows := f.rows.map (fun row => row.set ci v) }
  | none => { cols := f.cols ++ [k], rows := f.rows.map (fun row => row ++ [v]) }

/-- pandas `df.at[idx, key] = v` for a label/column pair that exists (the
processor creates the three annotation columns before the loop, and the
loop only ever writes those). -/
def setCellAt (f : Frame) (i : Nat) (k : ColKey) (v : JsonVal) : Frame :=
  match colIndex f.cols k, f.rows.get? i with
  | some ci, some row => { f with rows := f.rows.set i (row.set ci v) }
  | _, _ => f

/-- State threaded through the row loop of `process_feedback`: the
annotated copy being mutated, the two distributions, and the per-category
sample buffers. -/
structure RowState where
  processed : Frame
  sdist : Counter
  cdist : Counter
  catData : CatData

/-- One iteration of the row loop (feedback_processor.py lines 263–287):
skip blank feedback, otherwise classify, write the three annotation cells,
bump both distributions, and buffer the raw text under its category. -/
def processRow (cap : Capability) (df : Frame) (fc : ColKey)
    (st : RowState) (idx : Nat) (row : List JsonVal) : Except PyErr RowState :=
  let feedback_text := pyStr (rowValue df.cols row fc)
  if pyBlank feedback_text then .ok st
  else
    match process_single_feedback feedback_text cap with
    | .obj kvs =>
      let s := dictGet kvs "sentiment" (.str "neutral")
      let c := dictGet kvs "category" (.str "other")
      let kp := dictGet kvs "key_points" (.arr [])
      let processed :=
        setCellAt (setCellAt (setCellAt st.processed idx (.str "sentiment") s)
          idx (.str "category") c) idx (.str "key_points") kp
      match counterIncr st.sdist s with
      | .error e => .error e
      | .ok sdist =>
        match counterIncr st.cdist c with
        | .error e => .error e
        | .ok cdist =>
          match catDataAppend st.catData c feedback_text with
          | .error e => .error e
          | .ok catData =>
            .ok { processed := processed, sdist := sdist, cdist := cdist, catData := catData }
    | _ => .error (PyErr.attributeError "result object has no attribute get")

/-- The row loop over the indexed rows of the input frame. -/
def processRows (cap : Capability) (df : Frame) (fc : ColKey) :
    List (Nat × List JsonVal) → RowState → Except PyErr RowState
  | [], st => .ok st
  | (idx, row) :: rest, st =>
    match processRow cap df fc st idx row with
    | .error e => .error e
    | .ok st' => processRows cap df fc rest st'

/-- Python `d[k] = v` on an insertion-ordered dict: overwrite an existing
key in place, append a new one. -/
def assocUpdate {α : Type} (m : List (String × α)) (k : String) (v : α) : List (String × α) :=
  if (m.map Prod.fst).contains k then m.map (fun p => if p.1 = k then (p.1, v) else p)
  else m ++ [(k, v)]

/-- Embedding of `generate_category_summaries`: one entry per non-empty
bucket, generated from the first `min(20, len)` buffered samples, with an
explanatory placeholder on capability failure. -/
def generate_category_summaries (cd : CatData) (cap : Capability) : List (String × String) :=
  cd.foldl
    (fun summaries p =>
      if p.2.isEmpty then summaries
      else
        match cap.summarize p.1 (p.2.take 20) with
        | .ok t => assocUpdate summaries p.1 (pyStrip t)
        | .error e =>
          assocUpdate summaries p.1 ("Could not generate summary for " ++ p.1 ++ ": " ++ e))
    []

/-- The single generic fallback suggestion substituted when suggestion
generation fails for a category (feedback_processor.py lines 179–184). -/
def fallbackSuggestion (category : String) : JsonVal :=
  .arr [.obj [("title", .str "Improve based on feedback"),
              ("explanation", .str ("Review customer feedback for "
                ++ pyReplaceUnderscore category ++ " to identify specific improvement areas."))]]

/-- Embedding of `generate_improvement_suggestions`: one entry per
non-empty bucket from the first `min(20, len)` samples; the parsed JSON on
success, the one-element generic fallback on failure. -/
def generate_improvement_suggestions (cd : CatData) (cap : Capability) : List (String × JsonVal) :=
  cd.foldl
    (fun suggestions p =>
      if p.2.isEmpty then suggestions
      else
        match cap.suggest p.1 (p.2.take 20) with
        | .ok v => assocUpdate suggestions p.1 v
        | .error _ => assocUpdate suggestions p.1 (fallbackSuggestion p.1))
    []

/-- The result dictionary of `process_feedback`. -/
structure Results where
  sentiment_distribution : Counter
  category_distribution : Counter
  category_summaries : List (String × String)
  improvement_suggestions : List (String × JsonVal)
  processed_data : Frame

/-- The annotated copy before the row loop starts: `df.copy()` with the
three annotation columns broadcast to their defaults. -/
def initProcessed (df : Frame) : Frame :=
  setColumnConst (setColumnConst (setColumnConst df (.str "sentiment") (.str "neutral"))
    (.str "category") (.str "other")) (.str "key_points") (.arr [])

/-- Assembly of the result dictionary after the row loop (the two map
fields are empty unless their flag was set). -/
def mkResults (cap : Capability) (include_summaries include_suggestions : Bool)
    (st : RowState) : Results :=
  { sentiment_distribution := st.sdist, category_distribution := st.cdist,
    category_summaries :=
      if include_summaries then generate_category_summaries st.catData cap else [],
    improvement_suggestions :=
      if include_suggestions then generate_improvement_suggestions st.catData cap else [],
    processed_data := st.processed }

/-- The initial state of the row loop. -/
def initRowState (df : Frame) : RowState :=
  { processed := initProcessed df, sdist := [], cdist := [], catData := initCatData }

/-- Embedding of `process_feedback`.  The `include_sentiment` and
`include_categorization` parameters are accepted and, exactly as in the
source, never read. -/
def process_feedback (df : Frame) (cap : Capability)
    (include_sentiment include_categorization include_summaries include_suggestions : Bool) :
    Except PyErr Results :=
  match infer_feedback_column df with
  | .error e => .error e
  | .ok fc =>
    match processRows cap df fc df.rows.enum (initRowState df) with
    | .error e => .error e
    | .ok st => .ok (mkResults cap include_summaries include_suggestions st)

/-! ## Embedding of the chunk-and-merge loop of `app.py` (lines 90–151) -/

/-- `df.iloc[start:stop]`. -/
def sliceFrame (df : Frame) (start stop : Nat) : Frame :=
  { cols := df.cols, rows := (df.rows.drop start).take (stop - start) }

/-- `results[key][k] = results[key].get(k, 0) + v` on a Counter. -/
def counterAdd (c : Counter) (k : JsonVal) (v : Nat) : Counter :=
  if c.any (fun p => jsonBeq p.1 k) then
    c.map (fun p => if jsonBeq p.1 k then (p.1, p.2 + v) else p)
  else c ++ [(k, v)]

/-- Per-key summation merge of two Counters, iterating the second in
insertion order (app.py lines 127–130). -/
def counterMerge (a b : Counter) : Counter :=
  b.foldl (fun acc p => counterAdd acc p.1 p.2) a

/-- Python `dict.update`: last-write-wins merge (app.py lines 133–135). -/
def assocMerge {α : Type} (a b : List (String × α)) : List (String × α) :=
  b.foldl (fun acc p => assocUpdate acc p.1 p.2) a

/-- Accumulator of the chunk loop: `results` stays `none` while the Python
`results` dict is still `{}` (no chunk has succeeded at `i == 0`);
`processed` is the running concatenation `processed_df`. -/
structure AppAccum where
  results : Option Results
  processed : Option Frame

/-- One iteration of the chunk loop: slice, process, and either install
(first iteration) or merge; a chunk whose processing raises is logged and
skipped. -/
def appChunkStep (df : Frame) (cap : Capability) (s c su sg : Bool) (size n : Nat)
    (acc : AppAccum) (i : Nat) : AppAccum :=
  let start := i * size
  let stop := min (start + size) n
  let chunk := sliceFrame df start stop
  match process_feedback chunk cap s c su sg with
  | .error _ => acc
  | .ok cr =>
    let newProcessed :=
      match acc.processed with
      | none => some cr.processed_data
      | some f => some { cols := f.cols, rows := f.rows ++ cr.processed_data.rows }
    if i = 0 then { results := some cr, processed := some cr.processed_data }
    else
      match acc.results with
      | none => { results := none, processed := newProcessed }
      | some r =>
        { results := some
            { r with
              sentiment_distribution :=
                counterMerge r.sentiment_distribution cr.sentiment_distribution,
              category_distribution :=
                counterMerge r.category_distribution cr.category_distribution,
              category_summaries := assocMerge r.category_summaries cr.category_summaries,
              improvement_suggestions :=
                assocMerge r.improvement_suggestions cr.improvement_suggestions },
          processed := newProcessed }

/-- Embedding of the chunk loop of `app.py`:
`total_chunks = min(10, len(df))`, `chunk_size = max(1, len(df) // total_chunks)`,
chunks processed in order, distributions merged by per-key summation, maps
by overwrite, annotated frames by concatenation; finally
`results['processed_data'] = processed_df`.  (The app only reaches this
loop with a non-empty frame, so `total_chunks` is positive there.) -/
def appChunkLoop (df : Frame) (cap : Capability) (s c su sg : Bool) : AppAccum :=
  let n := df.rows.length
  let total := min 10 n
  let size := max 1 (n / total)
  let acc := (List.range total).foldl (appChunkStep df cap s c su sg size n)
    { results := none, processed := none }
  match acc.results, acc.processed with
  | some r, some f => { results := some { r with processed_data := f }, processed := acc.processed }
  | _, _ => acc

/-! ## Concrete instances used by counterexamples and witnesses -/

/-- An enrichment capability on which every call fails. -/
def capFail : Capability :=
  { classify := fun _ => .error "capability down",
    summarize := fun _ _ => .error "capability down",
    suggest := fun _ _ => .error "capability down" }

/-- A capability whose classification succeeds but names a category
outside the seven known ones. -/
def capOutOfVocab : Capability :=
  { classify := fun _ =>
      .ok (.obj [("sentiment", .str "positive"), ("category", .str "weird"),
                 ("key_points", .arr [])]),
    summarize := fun _ _ => .error "unused",
    suggest := fun _ _ => .error "unused" }

/-- A twelve-row feedback frame, as the normalizer would produce from a
twelve-line text file. -/
def df12 : Frame :=
  { cols := [.str "feedback"],
    rows := (List.range 12).map (fun i => [.str ("this is feedback entry number " ++ toString i)]) }

/-- A one-row feedback frame. -/
def df1 : Frame := { cols := [.str "feedback"], rows := [[.str "great tour experience"]] }

/-- Total number of counted items in a Counter. -/
def counterTotal (c : Counter) : Nat := (c.map Prod.snd).sum

/-- C2: the chunk loop of `app.py` on a 12-row dataset computes
`total_chunks = min(10, 12) = 10` and `chunk_size = max(1, 12 // 10) = 1`,
so its ten chunks cover only rows 0–9: rows 10 and 11 are never processed.
The merged distributions total 10 while single-shot processing of the same
frame totals 12, and the concatenated annotated frame has 10 rows, not 12.
This contradicts the claim (and spec §5) that chunk boundaries cannot
change the final aggregated counts and that every input row is processed
by exactly one chunk. -/
theorem c2_chunking_drops_rows_at_12 :
    ((appChunkLoop df12 capFail true true false false).results).map
        (fun r => counterTotal r.sentiment_distribution) = some 10
    ∧ (process_feedback df12 capFail true true false false).map
        (fun r => counterTotal r.sentiment_distribution) = .ok 12
    ∧ ((appChunkLoop df12 capFail true true false false).results).map
        (fun r => counterTotal r.category_distribution) = some 10
    ∧ (process_feedback df12 capFail true true false false).map
        (fun r => counterTotal r.category_distribution) = .ok 12
    ∧ ((appChunkLoop df12 capFail true true false false).results).map
        (fun r => r.processed_data.rows.length) = some 10
    ∧ df12.rows.length = 12 :=
  ⟨rfl, rfl, rfl, rfl, rfl, rfl⟩

/-- C3 counterexample: a capability whose successful classification names
the out-of-vocabulary category "weird" makes `process_feedback` raise
`KeyError` at `category_data[category].append(...)`
(feedback_processor.py line 284) instead of completing; the claim that the
engine completes for arbitrary returned category values is false. -/
theorem c3_out_of_vocab_category_raises :
    process_feedback df1 capOutOfVocab true true true true = .error (.keyError "weird") := rfl

/-- A one-column frame whose column label is the integer `0` — exactly what
the normalizer itself produces for JSON input `{"reviews": ["x"]}`. -/
def c4frame : Frame := { cols := [.nat 0], rows := [[.str "x"]] }

/-- C4 counterexample: on a frame with one column whose label is the
integer `0`, the name scan calls `col.lower()` on an `int` and raises
`AttributeError`, so inference fails on a dataset with one column; such a
frame is reachable — it is the normalizer's own output for the JSON object
`{"reviews": ["x"]}`.  The claim that inference fails only on zero-column
datasets is false. -/
theorem c4_integer_column_name_raises :
    infer_feedback_column c4frame = .error (.attributeError "int object has no attribute lower")
    ∧ c4frame.cols.length = 1
    ∧ jsonDispatch (.obj [("reviews", .arr [.str "x"])]) = .ok c4frame :=
  ⟨rfl, rfl, rfl⟩

/-- The parsed form of the JSON input named by C6. -/
def c6input : JsonVal :=
  .obj [("reviews", .arr [.str "x", .str "y"]), ("other", .arr [.str "z"])]

def c6content : String := "\x7b\"reviews\": [\"x\", \"y\"], \"other\": [\"z\"]\x7d"

/-- Oracles for the C6 run: `json.loads` succeeds with the parsed object. -/
def c6oracle : Oracles :=
  { readCsv := fun _ => .error "unused", readCsvPlain := fun _ => .error "unused",
    jsonLoads := fun _ => .ok c6input, literalEval := fun _ => .error "unused" }

/-- C6 counterexample: on `{"reviews": ["x", "y"], "other": ["z"]}` the
normalizer does select `reviews` and yields 2 rows, but the selected list
of strings is expanded by the bare `pd.DataFrame` constructor, giving a
single column labelled with the integer `0` — not the column `feedback`
that a top-level list of strings gets.  The claim that a selected list is
expanded the same way as a top-level list is false. -/
theorem c6_selected_string_list_not_feedback_column :
    (parse_json c6content c6oracle).1.rows.length = 2
    ∧ (parse_json c6content c6oracle).1.cols = [.nat 0]
    ∧ (ColKey.nat 0 : ColKey) ≠ .str "feedback"
    ∧ (parse_json c6content c6oracle).2 = "json"
    ∧ jsonDispatch (.arr [.str "x", .str "y"]) = .ok (feedbackFrame ["x", "y"]) :=
  ⟨rfl, rfl, by decide, rfl, rfl⟩

/-- The frame returned by the plain CSV re-parse in the C7 run. -/
def c7frame : Frame := { cols := [.str "a", .str "b"], rows := [[.str "c", .null]] }

/-- Oracles for the C7 run: the plain `pd.read_csv` re-parse succeeds. -/
def c7oracle : Oracles :=
  { readCsv := fun _ => .error "unused", readCsvPlain := fun _ => .ok c7frame,
    jsonLoads := fun _ => .error "unused", literalEval := fun _ => .error "unused" }

/-- Modelled from the claim's words (not from the source): at least two
non-blank lines and a strict majority of the first 10 lines contain a
comma. -/
def claimMajorityCond (ls : List String) : Bool :=
  decide (2 ≤ ls.length)
  && decide ((ls.take 10).length
      < 2 * ((ls.take 10).filter (fun l => l.toList.contains ',')).length)

/-- C7 counterexample: on the text `"a,b\nc\nd"` only 1 of the 3 lines
contains a comma — no majority — yet `parse_txt` attempts the CSV
re-parse (the source's test is `any(',' in line for line in lines[:10])`)
and returns the reader's frame with label "csv-like text".  The claim that
the re-parse happens exactly when a majority of the first 10 lines contain
a comma is false. -/
theorem c7_any_comma_not_majority :
    parse_txt "a,b\nc\nd" c7oracle = (c7frame, "csv-like text")
    ∧ claimMajorityCond (pyLines "a,b\nc\nd") = false :=
  ⟨rfl, rfl⟩

/-- A frame whose single column is already named `sentiment`. -/
def c9frame : Frame :=
  { cols := [.str "sentiment"], rows := [[.str "absolutely wonderful trip"]] }

/-- C9 counterexample: when the input frame already has a column named
`sentiment`, `processed_df['sentiment'] = 'neutral'` overwrites it in
place instead of appending a new column: the annotated frame has 3 columns
rather than the original 1 plus 3, and the original cell value is gone.
The claim that every original column survives with its values unchanged
and exactly three new columns are appended is false. -/
theorem c9_reserved_column_overwritten :
    (process_feedback c9frame capFail true true false false).map
        (fun r => r.processed_data.cols) = .ok [.str "sentiment", .str "category", .str "key_points"]
    ∧ (process_feedback c9frame capFail true true false false).map
        (fun r => getCellByKey r.processed_data 0 (.str "sentiment")) = .ok (some (.str "neutral"))
    ∧ getCellByKey c9frame 0 (.str "sentiment") = some (.str "absolutely wonderful trip")
    ∧ (JsonVal.str "neutral" = JsonVal.str "absolutely wonderful trip" → False) :=
  ⟨rfl, rfl, rfl, by simp⟩

/-- C10: `process_feedback` never reads `include_sentiment` or
`include_categorization`: the returned result is identical for all four
flag combinations; sentiment analysis and categorization always run and
are always counted and written.  Only `include_summaries` and
`include_suggestions` matter, and each does nothing but empty or populate
its own map. -/
theorem c10_sentiment_categorization_flags_ignored
    (df : Frame) (cap : Capability) (s1 c1 s2 c2 su sg : Bool) :
    process_feedback df cap s1 c1 su sg = process_feedback df cap s2 c2 su sg
    ∧ (process_feedback df cap s1 c1 true sg).map (fun r => { r with category_summaries := [] })
        = process_feedback df cap s1 c1 false sg
    ∧ (process_feedback df cap s1 c1 su true).map (fun r => { r with improvement_suggestions := [] })
        = process_feedback df cap s1 c1 su false := by
  refine ⟨rfl, ?_, ?_⟩ <;>
  · cases hfc : infer_feedback_column df with
    | error e => simp [process_feedback, hfc, Except.map]
    | ok fc =>
      cases hst : processRows cap df fc df.rows.enum (initRowState df) with
      | error e => simp [process_feedback, hfc, hst, Except.map]
      | ok st => simp [process_feedback, hfc, hst, Except.map, mkResults]

/-! ## Column inference: the amended C4 characterization -/

/-- All column labels are strings (always true of CSV headers and
dict-keyed JSON, false for RangeIndex columns). -/
def allStrCols (cols : List ColKey) : Bool :=
  cols.all (fun c => match c with | .str _ => true | _ => false)

/-- The vocabulary test on one column label. -/
def vocabPred (c : ColKey) : Bool :=
  match c with
  | .str s => potentialColumns.contains (pyLower s)
  | _ => false

/-- Modelled from the spec's words (§4.2): priority order — first column
whose name matches the vocabulary case-insensitively, else first
string-typed column whose first non-null sample is longer than 10
characters, else the first column. -/
def specInferFeedbackColumn (df : Frame) : Option ColKey :=
  match df.cols.find? vocabPred with
  | some c => some c
  | none =>
    match df.cols.find? (fun c => textColPred df c) with
    | some c => some c
    | none => df.cols.head?

theorem findVocabCol_allStr (cols : List ColKey) (h : allStrCols cols = true) :
    findVocabCol cols = .ok (cols.find? vocabPred) := by
  induction cols with
  | nil => rfl
  | cons c rest ih =>
    cases c with
    | str s =>
      simp only [allStrCols, List.all_cons, Bool.and_eq_true] at h
      by_cases hs : pyLower s ∈ potentialColumns <;>
        simp [findVocabCol, List.find?, vocabPred, hs, ih h.2]
    | nat n => simp [allStrCols, List.all_cons] at h

theorem findTextCol_eq_find (df : Frame) (cols : List ColKey) :
    findTextCol df cols = cols.find? (fun c => textColPred df c) := by
  induction cols with
  | nil => rfl
  | cons c rest ih =>
    by_cases h : textColPred df c <;> simp [findTextCol, List.find?, h, ih]

/-- C4 (amended): for datasets whose column labels are all strings, the
inference follows exactly the claimed priority — first vocabulary match in
column order, else first object-dtype column whose first non-null sample
is a string longer than 10 characters, else the first column — and it
fails iff the dataset has zero columns.  (The amendment, forced by the
counterexample, excludes non-string column labels, on which the name scan
raises `AttributeError` before any match.) -/
theorem c4_amended_inference_priority (df : Frame) (h : allStrCols df.cols = true) :
    infer_feedback_column df =
      (match specInferFeedbackColumn df with
       | some c => Except.ok c
       | none => Except.error (PyErr.valueError "Could not identify a suitable feedback column in the data"))
    ∧ ((infer_feedback_column df).toOption.isSome = true ↔ df.cols ≠ []) := by
  have h1 := findVocabCol_allStr df.cols h
  have heq : infer_feedback_column df =
      (match specInferFeedbackColumn df with
       | some c => Except.ok c
       | none => Except.error (PyErr.valueError "Could not identify a suitable feedback column in the data")) := by
    simp only [infer_feedback_column, specInferFeedbackColumn, h1, findTextCol_eq_find]
    cases df.cols.find? vocabPred with
    | some c => rfl
    | none =>
      cases df.cols.find? (fun c => textColPred df c) with
      | some c => rfl
      | none => cases df.cols.head? <;> rfl
  refine ⟨heq, ?_⟩
  rw [heq]
  cases hcols : df.cols with
  | nil => simp [specInferFeedbackColumn, hcols, Except.toOption]
  | cons c rest =>
    simp only [specInferFeedbackColumn, hcols]
    cases (c :: rest).find? vocabPred with
    | some c' => simp [Except.toOption]
    | none =>
      cases (c :: rest).find? (fun k => textColPred df k) with
      | some c' => simp [Except.toOption]
      | none => simp [Except.toOption]

/-- Witness for C4's amended theorem at the one-column frame `df1`. -/
theorem c4_amended_inference_priority_witness :
    allStrCols df1.cols = true ∧ infer_feedback_column df1 = .ok (.str "feedback") := by
  refine ⟨rfl, ?_⟩
  exact ((c4_amended_inference_priority df1 rfl).1).trans rfl

/-! ## C7: the amended re-parse condition of `parse_txt` -/

theorem txtLines_ne_nil (content : String) : txtLines content ≠ [] := by
  unfold txtLines
  by_cases hl : (pyLines content).isEmpty
  · simp [hl]
  · simp only [hl, if_neg]
    simpa [List.isEmpty_iff] using hl

theorem mkTextResult_of_ne_nil (ls : List String) (h : ls ≠ []) :
    mkTextResult ls = (feedbackFrame ls, "text") := by
  simp [mkTextResult, feedbackFrame, Frame.isEmpty, h]

theorem txtLines_of_csvLike (content : String)
    (h : csvLikeCond (txtLines content) = true) :
    txtLines content = pyLines content ∧ pyLines content ≠ [] := by
  unfold txtLines at *
  by_cases hl : (pyLines content).isEmpty
  · rw [if_pos hl] at h
    have hfalse : csvLikeCond ["No content found in file"] = false := by decide
    rw [hfalse] at h
    simp at h
  · rw [if_neg hl]
    refine ⟨rfl, ?_⟩
    simpa [List.isEmpty_iff] using hl

/-- C7 (amended): `parse_txt` attempts the CSV re-parse exactly when at
least 2 non-blank lines exist and AT LEAST ONE of the first 10 contains a
comma (the source's `any(...)`, not the claimed majority); when the
condition fails, or the re-parse raises, the result is one feedback row
per non-blank line with label "text". -/
theorem c7_amended_csv_reparse_condition (content : String) (o : Oracles) :
    (csvLikeCond (txtLines content) = true →
       (∀ f, o.readCsvPlain content = .ok f → parse_txt content o = (f, "csv-like text"))
       ∧ (∀ e, o.readCsvPlain content = .error e →
           parse_txt content o = (feedbackFrame (txtLines content), "text")))
    ∧ (csvLikeCond (txtLines content) = false →
       parse_txt content o = (feedbackFrame (txtLines content), "text")) := by
  constructor
  · intro hcond
    constructor
    · intro f hf
      simp [parse_txt, hcond, hf]
    · intro e he
      obtain ⟨heq, hne⟩ := txtLines_of_csvLike content hcond
      rw [← heq] at hne
      simp [parse_txt, hcond, he, ← heq, mkTextResult_of_ne_nil _ hne]
  · intro hcond
    simp [parse_txt, hcond, mkTextResult_of_ne_nil _ (txtLines_ne_nil content)]

/-- Witness for C7's amended theorem: a genuinely comma-majority text goes
through the CSV re-parse and a comma-free one falls to plain text. -/
theorem c7_amended_csv_reparse_condition_witness :
    (csvLikeCond (txtLines "a,b\nc,d") = true
      ∧ parse_txt "a,b\nc,d" c7oracle = (c7frame, "csv-like text"))
    ∧ (csvLikeCond (txtLines "hello\nworld") = false
      ∧ parse_txt "hello\nworld" c7oracle = (feedbackFrame (txtLines "hello\nworld"), "text")) :=
  ⟨⟨by decide,
    ((c7_amended_csv_reparse_condition "a,b\nc,d" c7oracle).1 (by decide)).1 c7frame rfl⟩,
   ⟨by decide,
    (c7_amended_csv_reparse_condition "hello\nworld" c7oracle).2 (by decide)⟩⟩

/-! ## C8: summaries and suggestions per non-empty bucket -/

/-- The summary text generate_category_summaries stores for one category:
the capability's answer (stripped) or the explanatory placeholder. -/
def summaryEntry (cap : Capability) (c : String) (fs : List String) : String :=
  match cap.summarize c (fs.take 20) with
  | .ok t => pyStrip t
  | .error e => "Could not generate summary for " ++ c ++ ": " ++ e

/-- The suggestions generate_improvement_suggestions stores for one
category: the parsed value or the one-element generic fallback. -/
def suggestionEntry (cap : Capability) (c : String) (fs : List String) : JsonVal :=
  match cap.suggest c (fs.take 20) with
  | .ok v => v
  | .error _ => fallbackSuggestion c

theorem assocUpdate_not_mem {α : Type} (m : List (String × α)) (k : String) (v : α)
    (h : k ∉ m.map Prod.fst) : assocUpdate m k v = m ++ [(k, v)] := by
  have hc : (m.map Prod.fst).contains k = false := by simpa using h
  unfold assocUpdate
  rw [hc]
  simp

theorem catFold_eq {β : Type} (entry : String → List String → β) :
    ∀ (cd : CatData) (acc : List (String × β)),
    (cd.map Prod.fst).Nodup →
    (∀ p ∈ cd, p.1 ∉ acc.map Prod.fst) →
    cd.foldl (fun m p => if p.2.isEmpty then m else assocUpdate m p.1 (entry p.1 p.2)) acc
      = acc ++ (cd.filter (fun p => !p.2.isEmpty)).map (fun p => (p.1, entry p.1 p.2)) := by
  intro cd
  induction cd with
  | nil => intro acc _ _; simp
  | cons hd tl ih =>
    intro acc hnd hacc
    rw [List.map_cons, List.nodup_cons] at hnd
    obtain ⟨hhd, hnd'⟩ := hnd
    by_cases hempty : hd.2.isEmpty
    · rw [List.foldl_cons, if_pos hempty]
      rw [ih acc hnd' (fun p hp => hacc p (List.mem_cons_of_mem hd hp))]
      simp [List.filter_cons, hempty]
    · rw [List.foldl_cons, if_neg hempty]
      rw [assocUpdate_not_mem acc hd.1 _ (hacc hd (List.mem_cons_self hd tl))]
      have hacc' : ∀ p ∈ tl, p.1 ∉ (acc ++ [(hd.1, entry hd.1 hd.2)]).map Prod.fst := by
        intro p hp hmem
        rw [List.map_append] at hmem
        rcases List.mem_append.mp hmem with h1 | h2
        · exact hacc p (List.mem_cons_of_mem hd hp) h1
        · have hph : p.1 = hd.1 := by simpa using h2
          exact hhd (hph ▸ List.mem_map_of_mem Prod.fst hp)
      rw [ih _ hnd' hacc']
      simp [List.filter_cons, hempty, List.append_assoc]

theorem gcs_step_eq (cap : Capability) :
    (fun (m : List (String × String)) (p : String × List String) =>
      if p.2.isEmpty then m
      else
        match cap.summarize p.1 (p.2.take 20) with
        | .ok t => assocUpdate m p.1 (pyStrip t)
        | .error e => assocUpdate m p.1 ("Could not generate summary for " ++ p.1 ++ ": " ++ e))
    = (fun m p => if p.2.isEmpty then m else assocUpdate m p.1 (summaryEntry cap p.1 p.2)) := by
  funext m p
  by_cases h : p.2.isEmpty
  · simp [h]
  · cases hc : cap.summarize p.1 (p.2.take 20) <;> simp [h, hc, summaryEntry]

theorem gis_step_eq (cap : Capability) :
    (fun (m : List (String × JsonVal)) (p : String × List String) =>
      if p.2.isEmpty then m
      else
        match cap.suggest p.1 (p.2.take 20) with
        | .ok v => assocUpdate m p.1 v
        | .error _ => assocUpdate m p.1 (fallbackSuggestion p.1))
    = (fun m p => if p.2.isEmpty then m else assocUpdate m p.1 (suggestionEntry cap p.1 p.2)) := by
  funext m p
  by_cases h : p.2.isEmpty
  · simp [h]
  · cases hc : cap.suggest p.1 (p.2.take 20) <;> simp [h, hc, suggestionEntry]

/-- C8: over any per-category buffer map with distinct category keys and
any capability, summary and suggestion generation each produce exactly one
entry per category with a non-empty buffer (empty buckets are omitted),
each computed from at most the first 20 buffered samples of its category;
a capability failure yields the explanatory placeholder string
(summaries), respectively the single generic (title, explanation)
fallback (suggestions), instead of omitting the category. -/
theorem c8_per_bucket_summaries_and_suggestions (cd : CatData) (cap : Capability)
    (hnd : (cd.map Prod.fst).Nodup) :
    generate_category_summaries cd cap
      = (cd.filter (fun p => !p.2.isEmpty)).map (fun p => (p.1, summaryEntry cap p.1 p.2))
    ∧ generate_improvement_suggestions cd cap
      = (cd.filter (fun p => !p.2.isEmpty)).map (fun p => (p.1, suggestionEntry cap p.1 p.2)) := by
  constructor
  · show cd.foldl _ [] = _
    rw [show (fun (m : List (String × String)) (p : String × List String) =>
      if p.2.isEmpty then m
      else
        match cap.summarize p.1 (p.2.take 20) with
        | .ok t => assocUpdate m p.1 (pyStrip t)
        | .error e => assocUpdate m p.1 ("Could not generate summary for " ++ p.1 ++ ": " ++ e))
      = _ from gcs_step_eq cap]
    exact (catFold_eq (summaryEntry cap) cd [] hnd (by intro p _ h; simp at h)).trans (by simp)
  · show cd.foldl _ [] = _
    rw [show (fun (m : List (String × JsonVal)) (p : String × List String) =>
      if p.2.isEmpty then m
      else
        match cap.suggest p.1 (p.2.take 20) with
        | .ok v => assocUpdate m p.1 v
        | .error _ => assocUpdate m p.1 (fallbackSuggestion p.1))
      = _ from gis_step_eq cap]
    exact (catFold_eq (suggestionEntry cap) cd [] hnd (by intro p _ h; simp at h)).trans (by simp)

/-- Witness for C8 at a concrete two-bucket map (one empty bucket) under
the always-failing capability. -/
theorem c8_per_bucket_summaries_and_suggestions_witness :
    (([("food_dining", ["tasty", "fresh"]), ("other", [])] : CatData).map Prod.fst).Nodup
    ∧ generate_category_summaries [("food_dining", ["tasty", "fresh"]), ("other", [])] capFail
        = [("food_dining", "Could not generate summary for food_dining: capability down")]
    ∧ generate_improvement_suggestions [("food_dining", ["tasty", "fresh"]), ("other", [])] capFail
        = [("food_dining", fallbackSuggestion "food_dining")] := by
  have h := c8_per_bucket_summaries_and_suggestions
    [("food_dining", ["tasty", "fresh"]), ("other", [])] capFail (by simp)
  exact ⟨by simp, h.1.trans rfl, h.2.trans rfl⟩

/-! ## C6: the amended dict-with-lists selection -/

theorem foldlMaxBy_spec {α : Type} (f : α → Nat) :
    ∀ (l : List α) (b : α),
    (l.foldl (fun best y => if f best < f y then y else best) b = b
      ∨ l.foldl (fun best y => if f best < f y then y else best) b ∈ l)
    ∧ f b ≤ f (l.foldl (fun best y => if f best < f y then y else best) b)
    ∧ ∀ y ∈ l, f y ≤ f (l.foldl (fun best y => if f best < f y then y else best) b) := by
  intro l
  induction l with
  | nil =>
    intro b
    exact ⟨Or.inl rfl, le_refl _, by intro y hy; cases hy⟩
  | cons x xs ih =>
    intro b
    by_cases h : f b < f x
    · obtain ⟨hm, hle, hall⟩ := ih x
      simp only [List.foldl_cons, if_pos h]
      refine ⟨?_, le_of_lt (lt_of_lt_of_le h hle), ?_⟩
      · rcases hm with hm | hm
        · exact Or.inr (by rw [hm]; exact List.mem_cons_self x xs)
        · exact Or.inr (List.mem_cons_of_mem x hm)
      · intro y hy
        rcases List.mem_cons.mp hy with hy | hy
        · rw [hy]; exact hle
        · exact hall y hy
    · obtain ⟨hm, hle, hall⟩ := ih b
      simp only [List.foldl_cons, if_neg h]
      refine ⟨?_, hle, ?_⟩
      · rcases hm with hm | hm
        · exact Or.inl hm
        · exact Or.inr (List.mem_cons_of_mem x hm)
      · intro y hy
        rcases List.mem_cons.mp hy with hy | hy
        · rw [hy]; exact le_trans (Nat.not_lt.mp h) hle
        · exact hall y hy

theorem pyMaxByLen_spec (kvs : List (String × JsonVal)) (ks : List String) (hne : ks ≠ []) :
    ∃ mk, pyMaxByLen kvs ks = some mk ∧ mk ∈ ks
      ∧ ∀ k' ∈ ks, (asArr (dictGet kvs k' .null)).length ≤ (asArr (dictGet kvs mk .null)).length := by
  cases ks with
  | nil => exact absurd rfl hne
  | cons k rest =>
    obtain ⟨hm, hle, hall⟩ := foldlMaxBy_spec (fun x => (asArr (dictGet kvs x .null)).length) rest k
    refine ⟨_, rfl, ?_, ?_⟩
    · rcases hm with hm | hm
      · rw [hm]; exact List.mem_cons_self k rest
      · exact List.mem_cons_of_mem k hm
    · intro k' hk'
      rcases List.mem_cons.mp hk' with hk' | hk'
      · rw [hk']; exact hle
      · exact hall k' hk'

/-- C6 (amended): for JSON objects with list-valued keys the selection is
as claimed — first preference-list key present among the list keys, else a
longest list (skipped for a falsy key or an empty list, falling back to a
single-row frame of the whole object) — but the selected list is expanded
by the bare `pd.DataFrame` constructor, not like a top-level list: a
non-empty list of records still yields their keys as columns, while a
non-empty list of strings yields a single RangeIndex column labelled `0`
(one row per string) instead of a column named `feedback`. -/
theorem c6_amended_dict_list_selection (kvs : List (String × JsonVal)) :
    (∀ k, listKeysOf kvs ≠ [] →
      preferredKeys.find? (fun x => (listKeysOf kvs).contains x) = some k →
      jsonDispatch (.obj kvs) = pdDataFrameOfList (asArr (dictGet kvs k .null)))
    ∧ (listKeysOf kvs ≠ [] →
       preferredKeys.find? (fun x => (listKeysOf kvs).contains x) = none →
       ∃ mk, mk ∈ listKeysOf kvs
         ∧ (∀ k' ∈ listKeysOf kvs,
             (asArr (dictGet kvs k' .null)).length ≤ (asArr (dictGet kvs mk .null)).length)
         ∧ jsonDispatch (.obj kvs) =
             (if mk ≠ "" && !(asArr (dictGet kvs mk .null)).isEmpty then
               pdDataFrameOfList (asArr (dictGet kvs mk .null))
             else .ok (frameOfDicts [kvs])))
    ∧ (∀ xs : List JsonVal, xs ≠ [] → xs.all isStrVal = true →
        pdDataFrameOfList xs = .ok { cols := [.nat 0], rows := xs.map (fun v => [v]) })
    ∧ (∀ xs : List JsonVal, xs ≠ [] → xs.all isObjVal = true →
        pdDataFrameOfList xs = .ok (frameOfDicts (xs.map asObj))
        ∧ jsonDispatch (.arr xs) = pdDataFrameOfList xs) := by
  refine ⟨?_, ?_, ?_, ?_⟩
  · intro k hne hfind
    simp only [jsonDispatch]
    rw [if_neg (by simpa [List.isEmpty_iff] using hne), hfind]
  · intro hne hfind
    obtain ⟨mk, hmax, hmem, hall⟩ := pyMaxByLen_spec kvs (listKeysOf kvs) hne
    refine ⟨mk, hmem, hall, ?_⟩
    simp only [jsonDispatch]
    rw [if_neg (by simpa [List.isEmpty_iff] using hne), hfind, hmax]
  · intro xs hne hstr
    have h0 : xs.isEmpty = false := by simpa [List.isEmpty_iff] using hne
    simp only [pdDataFrameOfList]
    rw [if_neg (by simp [h0])]
    have hobj : xs.all isObjVal = false := by
      cases xs with
      | nil => exact absurd rfl hne
      | cons y ys =>
        have hy : isStrVal y = true := by
          have := List.all_eq_true.mp hstr y (List.mem_cons_self y ys)
          exact this
        cases y <;> simp_all [isStrVal, isObjVal]
    rw [if_neg (by simp [hobj])]
    have hsc : xs.all isScalarVal = true := by
      rw [List.all_eq_true] at hstr ⊢
      intro v hv
      have := hstr v hv
      cases v <;> simp_all [isStrVal, isScalarVal]
    rw [if_pos hsc]
  · intro xs hne hobj
    have h0 : xs.isEmpty = false := by simpa [List.isEmpty_iff] using hne
    constructor
    · simp only [pdDataFrameOfList]
      rw [if_neg (by simp [h0]), if_pos hobj]
    · have hstr : xs.all isStrVal = false := by
        cases xs with
        | nil => exact absurd rfl hne
        | cons y ys =>
          have hy : isObjVal y = true := List.all_eq_true.mp hobj y (List.mem_cons_self y ys)
          cases y <;> simp_all [isStrVal, isObjVal]
      simp only [jsonDispatch]
      rw [if_neg (by simp [hstr])]

/-- Witness for C6's amended theorem at the claim's own example object. -/
theorem c6_amended_dict_list_selection_witness :
    listKeysOf [("reviews", JsonVal.arr [.str "x", .str "y"]), ("other", JsonVal.arr [.str "z"])] ≠ []
    ∧ preferredKeys.find?
        (fun x => (listKeysOf [("reviews", JsonVal.arr [.str "x", .str "y"]),
          ("other", JsonVal.arr [.str "z"])]).contains x) = some "reviews"
    ∧ jsonDispatch c6input
        = pdDataFrameOfList (asArr (dictGet
            [("reviews", JsonVal.arr [.str "x", .str "y"]), ("other", JsonVal.arr [.str "z"])]
            "reviews" .null)) := by
  refine ⟨by decide, rfl, ?_⟩
  exact (c6_amended_dict_list_selection
    [("reviews", JsonVal.arr [.str "x", .str "y"]), ("other", JsonVal.arr [.str "z"])]).1
    "reviews" (by decide) rfl

/-! ## Frame lemmas: column lookup, column/cell mutation -/

/-- pandas invariant: every row has one cell per column. -/
def Frame.aligned (f : Frame) : Prop :=
  ∀ row ∈ f.rows, row.length = f.cols.length

theorem colIndex_cons (c : ColKey) (cols : List ColKey) (k : ColKey) :
    colIndex (c :: cols) k = if c = k then some 0 else (colIndex cols k).map (· + 1) := by
  unfold colIndex
  rw [List.findIdx?_cons, List.findIdx?_succ]
  by_cases h : c = k <;> simp [h]

theorem colIndex_eq_none_iff (cols : List ColKey) (k : ColKey) :
    colIndex cols k = none ↔ k ∉ cols := by
  induction cols with
  | nil => simp [colIndex]
  | cons c cs ih =>
    rw [colIndex_cons]
    by_cases h : c = k
    · simp [h]
    · simp only [if_neg h, List.mem_cons]
      constructor
      · intro hmap
        have : colIndex cs k = none := by
          cases hcs : colIndex cs k with
          | none => rfl
          | some i => rw [hcs] at hmap; simp at hmap
        intro hmem
        rcases hmem with hmem | hmem
        · exact h hmem.symm
        · exact (ih.mp this) hmem
      · intro hmem
        have : k ∉ cs := fun hc => hmem (Or.inr hc)
        rw [ih.mpr this]
        rfl

theorem colIndex_lt_length (cols : List ColKey) (k : ColKey) (i : Nat)
    (h : colIndex cols k = some i) : i < cols.length := by
  induction cols generalizing i with
  | nil => simp [colIndex] at h
  | cons c cs ih =>
    rw [colIndex_cons] at h
    by_cases hc : c = k
    · rw [if_pos hc] at h
      cases h
      simp
    · rw [if_neg hc] at h
      cases hcs : colIndex cs k with
      | none => rw [hcs] at h; simp at h
      | some j =>
        rw [hcs] at h
        simp at h
        subst h
        have := ih j hcs
        simp only [List.length_cons]
        omega

theorem colIndex_get (cols : List ColKey) (k : ColKey) (i : Nat)
    (h : colIndex cols k = some i) : cols.get? i = some k := by
  induction cols generalizing i with
  | nil => simp [colIndex] at h
  | cons c cs ih =>
    rw [colIndex_cons] at h
    by_cases hc : c = k
    · rw [if_pos hc] at h
      cases h
      simp [hc]
    · rw [if_neg hc] at h
      cases hcs : colIndex cs k with
      | none => rw [hcs] at h; simp at h
      | some j =>
        rw [hcs] at h
        simp at h
        subst h
        simpa using ih j hcs

theorem colIndex_append (cols rest : List ColKey) (k : ColKey) :
    colIndex (cols ++ rest) k =
      (match colIndex cols k with
       | some i => some i
       | none => (colIndex rest k).map (cols.length + ·)) := by
  induction cols with
  | nil => simp [colIndex]
  | cons c cs ih =>
    rw [List.cons_append, colIndex_cons, colIndex_cons, ih]
    by_cases h : c = k
    · simp [h]
    · simp only [if_neg h]
      cases colIndex cs k with
      | some i => simp
      | none =>
        cases colIndex rest k with
        | none => simp
        | some j => simp [List.length_cons]; omega

theorem colIndex_mem_self (cols : List ColKey) (k : ColKey) (h : k ∈ cols) :
    ∃ i, colIndex cols k = some i := by
  cases hc : colIndex cols k with
  | none => exact absurd ((colIndex_eq_none_iff cols k).mp hc) (by simpa using h)
  | some i => exact ⟨i, rfl⟩

theorem take_set_of_le {α : Type} :
    ∀ (l : List α) (i : Nat) (a : α) (n : Nat), n ≤ i → (l.set i a).take n = l.take n
  | [], _, _, _, _ => by simp
  | _ :: _, 0, a, n, h => by
    have hn : n = 0 := Nat.le_zero.mp h
    simp [hn]
  | x :: xs, i + 1, a, 0, _ => by simp
  | x :: xs, i + 1, a, n + 1, h => by
    show x :: (xs.set i a).take n = x :: xs.take n
    rw [take_set_of_le xs i a n (Nat.le_of_succ_le_succ h)]

theorem setColumnConst_fresh (f : Frame) (k : ColKey) (v : JsonVal) (h : k ∉ f.cols) :
    setColumnConst f k v = { cols := f.cols ++ [k], rows := f.rows.map (fun row => row ++ [v]) } := by
  unfold setColumnConst
  rw [(colIndex_eq_none_iff f.cols k).mpr h]

theorem setColumnConst_cols_mem (f : Frame) (k : ColKey) (v : JsonVal) :
    k ∈ (setColumnConst f k v).cols := by
  unfold setColumnConst
  cases hc : colIndex f.cols k with
  | some ci =>
    have := colIndex_get f.cols k ci hc
    exact List.get?_mem this
  | none => simp

theorem setColumnConst_cols_mono (f : Frame) (k' : ColKey) (v : JsonVal) (k : ColKey)
    (h : k ∈ f.cols) : k ∈ (setColumnConst f k' v).cols := by
  unfold setColumnConst
  cases colIndex f.cols k' with
  | some ci => exact h
  | none => simp [h]

theorem setColumnConst_rows_length (f : Frame) (k : ColKey) (v : JsonVal) :
    (setColumnConst f k v).rows.length = f.rows.length := by
  unfold setColumnConst
  cases colIndex f.cols k <;> simp

theorem setColumnConst_aligned (f : Frame) (k : ColKey) (v : JsonVal) (hal : f.aligned) :
    (setColumnConst f k v).aligned := by
  unfold setColumnConst
  cases colIndex f.cols k with
  | some ci =>
    intro row hrow
    simp only [List.mem_map] at hrow
    obtain ⟨r, hr, hrr⟩ := hrow
    rw [← hrr]
    simpa using hal r hr
  | none =>
    intro row hrow
    simp only [List.mem_map] at hrow
    obtain ⟨r, hr, hrr⟩ := hrow
    rw [← hrr]
    simp [hal r hr]

theorem setColumnConst_cell_self (f : Frame) (k : ColKey) (v : JsonVal) (i : Nat)
    (hal : f.aligned) (hi : i < f.rows.length) :
    getCellByKey (setColumnConst f k v) i k = some v := by
  cases hrow : f.rows.get? i with
  | none =>
    rw [List.get?_eq_none] at hrow
    omega
  | some row =>
    have hmem : row ∈ f.rows := List.get?_mem hrow
    have hlen : row.length = f.cols.length := hal row hmem
    cases hc : colIndex f.cols k with
    | some ci =>
      have hci : ci < f.cols.length := colIndex_lt_length f.cols k ci hc
      simp only [setColumnConst, hc, getCellByKey, List.get?_map, hrow, Option.map_some',
        Option.some_bind]
      rw [List.getD_eq_getElem?_getD, List.getElem?_set_eq_of_lt v (by omega)]
      rfl
    | none =>
      have hkk : colIndex [k] k = some 0 := by
        rw [show ([k] : List ColKey) = k :: [] from rfl, colIndex_cons, if_pos rfl]
      simp only [setColumnConst, hc, getCellByKey, List.get?_map, hrow, Option.map_some',
        Option.some_bind, colIndex_append, hkk]
      simp only [Option.map_some', Nat.add_zero]
      rw [List.getD_eq_getElem?_getD, ← hlen, List.getElem?_concat_length]
      rfl

theorem setColumnConst_cell_ne (f : Frame) (k' k : ColKey) (v : JsonVal) (i : Nat)
    (hal : f.aligned) (hne : k' ≠ k) :
    getCellByKey (setColumnConst f k' v) i k = getCellByKey f i k := by
  cases hrow : f.rows.get? i with
  | none =>
    rw [List.get?_eq_getElem?] at hrow
    cases hc : colIndex f.cols k' with
    | some ci => simp [setColumnConst, hc, getCellByKey, List.get?_map, hrow]
    | none => simp [setColumnConst, hc, getCellByKey, List.get?_map, hrow]
  | some row =>
    have hmem := List.get?_mem hrow
    have hlen := hal row hmem
    cases hc : colIndex f.cols k' with
    | some ci' =>
      cases hk : colIndex f.cols k with
      | none => simp [setColumnConst, hc, getCellByKey, List.get?_map, hrow, hk]
      | some ci =>
        have hne2 : ci' ≠ ci := by
          intro hcontra
          have h1 := colIndex_get f.cols k ci hk
          have h2 := colIndex_get f.cols k' ci' hc
          rw [hcontra, h1] at h2
          exact hne (by injection h2 with h3; exact h3.symm)
        simp only [setColumnConst, hc, getCellByKey, List.get?_map, hrow, Option.map_some',
          Option.some_bind, hk]
        rw [List.getD_eq_getElem?_getD, List.getD_eq_getElem?_getD,
          List.getElem?_set_ne hne2]
    | none =>
      cases hk : colIndex f.cols k with
      | some ci =>
        have hci := colIndex_lt_length f.cols k ci hk
        have happ : colIndex (f.cols ++ [k']) k = some ci := by
          rw [colIndex_append, hk]
        simp only [setColumnConst, hc, getCellByKey, List.get?_map, hrow, Option.map_some',
          Option.some_bind, happ, hk]
        rw [List.getD_eq_getElem?_getD, List.getD_eq_getElem?_getD,
          List.getElem?_append_left (by omega)]
      | none =>
        have hknil : colIndex ([k'] : List ColKey) k = none := by
          rw [show ([k'] : List ColKey) = k' :: [] from rfl, colIndex_cons, if_neg hne]
          rfl
        have happ : colIndex (f.cols ++ [k']) k = none := by
          rw [colIndex_append, hk, hknil]
          rfl
        simp [setColumnConst, hc, getCellByKey, List.get?_map, hrow, hk, happ]

theorem setCellAt_eq_of (f : Frame) (i : Nat) (k : ColKey) (v : JsonVal) (ci : Nat)
    (row : List JsonVal) (hc : colIndex f.cols k = some ci) (hrow : f.rows.get? i = some row) :
    setCellAt f i k v = { cols := f.cols, rows := f.rows.set i (row.set ci v) } := by
  unfold setCellAt
  rw [hc, hrow]

theorem setCellAt_eq_id_of_none_col (f : Frame) (i : Nat) (k : ColKey) (v : JsonVal)
    (hc : colIndex f.cols k = none) : setCellAt f i k v = f := by
  unfold setCellAt
  rw [hc]

theorem setCellAt_eq_id_of_none_row (f : Frame) (i : Nat) (k : ColKey) (v : JsonVal)
    (hrow : f.rows.get? i = none) : setCellAt f i k v = f := by
  unfold setCellAt
  rw [hrow]
  cases colIndex f.cols k <;> rfl

theorem setCellAt_cols (f : Frame) (i : Nat) (k : ColKey) (v : JsonVal) :
    (setCellAt f i k v).cols = f.cols := by
  cases hc : colIndex f.cols k with
  | none => rw [setCellAt_eq_id_of_none_col f i k v hc]
  | some ci =>
    cases hrow : f.rows.get? i with
    | none => rw [setCellAt_eq_id_of_none_row f i k v hrow]
    | some row => rw [setCellAt_eq_of f i k v ci row hc hrow]

theorem setCellAt_rows_length (f : Frame) (i : Nat) (k : ColKey) (v : JsonVal) :
    (setCellAt f i k v).rows.length = f.rows.length := by
  cases hc : colIndex f.cols k with
  | none => rw [setCellAt_eq_id_of_none_col f i k v hc]
  | some ci =>
    cases hrow : f.rows.get? i with
    | none => rw [setCellAt_eq_id_of_none_row f i k v hrow]
    | some row =>
      rw [setCellAt_eq_of f i k v ci row hc hrow]
      simp

theorem setCellAt_get_ne (f : Frame) (i : Nat) (k : ColKey) (v : JsonVal) (j : Nat)
    (h : j ≠ i) : (setCellAt f i k v).rows.get? j = f.rows.get? j := by
  cases hc : colIndex f.cols k with
  | none => rw [setCellAt_eq_id_of_none_col f i k v hc]
  | some ci =>
    cases hrow : f.rows.get? i with
    | none => rw [setCellAt_eq_id_of_none_row f i k v hrow]
    | some row =>
      rw [setCellAt_eq_of f i k v ci row hc hrow]
      show (f.rows.set i (row.set ci v)).get? j = f.rows.get? j
      rw [List.get?_eq_getElem?, List.get?_eq_getElem?, List.getElem?_set_ne (Ne.symm h)]

theorem setCellAt_aligned (f : Frame) (i : Nat) (k : ColKey) (v : JsonVal)
    (hal : f.aligned) : (setCellAt f i k v).aligned := by
  cases hc : colIndex f.cols k with
  | none => rw [setCellAt_eq_id_of_none_col f i k v hc]; exact hal
  | some ci =>
    cases hrow : f.rows.get? i with
    | none => rw [setCellAt_eq_id_of_none_row f i k v hrow]; exact hal
    | some row =>
      rw [setCellAt_eq_of f i k v ci row hc hrow]
      intro r hr
      rcases List.mem_or_eq_of_mem_set hr with hmem | heq
      · exact hal r hmem
      · rw [heq]
        simp [hal row (List.get?_mem hrow)]

theorem setCellAt_cell_self (f : Frame) (i : Nat) (k : ColKey) (v : JsonVal)
    (hal : f.aligned) (hk : k ∈ f.cols) (hi : i < f.rows.length) :
    getCellByKey (setCellAt f i k v) i k = some v := by
  obtain ⟨ci, hc⟩ := colIndex_mem_self f.cols k hk
  cases hrow : f.rows.get? i with
  | none =>
    rw [List.get?_eq_none] at hrow
    omega
  | some row =>
    have hlen := hal row (List.get?_mem hrow)
    have hci := colIndex_lt_length f.cols k ci hc
    rw [setCellAt_eq_of f i k v ci row hc hrow]
    unfold getCellByKey
    show ((f.rows.set i (row.set ci v)).get? i).bind _ = some v
    rw [List.get?_eq_getElem?, List.getElem?_set_eq_of_lt _ (by simpa using hi)]
    simp only [Option.some_bind, hc, Option.map_some']
    rw [List.getD_eq_getElem?_getD, List.getElem?_set_eq_of_lt v (by omega)]
    rfl

theorem setCellAt_cell_ne_key (f : Frame) (i : Nat) (k' k : ColKey) (v : JsonVal) (j : Nat)
    (hne : k ≠ k') : getCellByKey (setCellAt f i k' v) j k = getCellByKey f j k := by
  by_cases hj : j = i
  · subst hj
    cases hc : colIndex f.cols k' with
    | none => rw [setCellAt_eq_id_of_none_col f j k' v hc]
    | some ci' =>
      cases hrow : f.rows.get? j with
      | none => rw [setCellAt_eq_id_of_none_row f j k' v hrow]
      | some row =>
        have hjl : j < f.rows.length := by
          by_contra hh
          rw [List.get?_eq_none.mpr (by omega)] at hrow
          cases hrow
        rw [setCellAt_eq_of f j k' v ci' row hc hrow]
        cases hk : colIndex f.cols k with
        | none =>
          unfold getCellByKey
          rw [hk]
          simp
        | some ci =>
          have hne2 : ci' ≠ ci := by
            intro hcontra
            have h1 := colIndex_get f.cols k ci hk
            have h2 := colIndex_get f.cols k' ci' hc
            rw [hcontra, h1] at h2
            exact hne (Option.some.inj h2)
          unfold getCellByKey
          show ((f.rows.set j (row.set ci' v)).get? j).bind _ = (f.rows.get? j).bind _
          rw [hrow, List.get?_eq_getElem?, List.getElem?_set_eq_of_lt _ (by simpa using hjl)]
          simp only [Option.some_bind, hk, Option.map_some']
          rw [List.getD_eq_getElem?_getD, List.getD_eq_getElem?_getD,
            List.getElem?_set_ne hne2]
  · unfold getCellByKey
    rw [setCellAt_get_ne f i k' v j hj, setCellAt_cols]

theorem setCellAt_take (f : Frame) (i : Nat) (k : ColKey) (v : JsonVal) (n ci : Nat)
    (hci : colIndex f.cols k = some ci) (hn : n ≤ ci) (j : Nat) :
    ((setCellAt f i k v).rows.get? j).map (List.take n) = (f.rows.get? j).map (List.take n) := by
  by_cases hj : j = i
  · subst hj
    cases hrow : f.rows.get? j with
    | none =>
      rw [setCellAt_eq_id_of_none_row f j k v hrow, hrow]
    | some row =>
      have hjl : j < f.rows.length := by
        by_contra hh
        rw [List.get?_eq_none.mpr (by omega)] at hrow
        cases hrow
      rw [setCellAt_eq_of f j k v ci row hci hrow]
      show ((f.rows.set j (row.set ci v)).get? j).map _ = _
      rw [List.get?_eq_getElem?, List.getElem?_set_eq_of_lt _ (by simpa using hjl)]
      simp [take_set_of_le row ci v n hn]
  · rw [setCellAt_get_ne f i k v j hj]

/-! ## Counter and category-buffer bookkeeping -/

/-- Total number of buffered texts across all category buckets. -/
def catDataTotal (cd : CatData) : Nat := (cd.map (fun p => p.2.length)).sum

theorem map_id_of_eq {α : Type} (l : List α) (f : α → α) (h : ∀ a ∈ l, f a = a) :
    l.map f = l := by
  induction l with
  | nil => rfl
  | cons x xs ih =>
    rw [List.map_cons, h x (List.mem_cons_self x xs),
      ih (fun a ha => h a (List.mem_cons_of_mem x ha))]

theorem counterTotal_bump (c : Counter) (v : JsonVal) :
    counterTotal (bumpCount c v) = counterTotal c + 1 := by
  induction c with
  | nil => simp [bumpCount, counterTotal]
  | cons p rest ih =>
    obtain ⟨pk, pn⟩ := p
    unfold bumpCount
    by_cases h : jsonBeq pk v
    · rw [if_pos h]
      simp [counterTotal]
      omega
    · rw [if_neg h]
      unfold counterTotal at ih ⊢
      simp only [List.map_cons, List.sum_cons]
      omega

theorem counterIncr_ok (c : Counter) (v : JsonVal) (h : jsonHashable v = true) :
    counterIncr c v = .ok (bumpCount c v) := by
  simp [counterIncr, h]

theorem counterIncr_total (c : Counter) (v : JsonVal) (c' : Counter)
    (h : counterIncr c v = .ok c') : counterTotal c' = counterTotal c + 1 := by
  unfold counterIncr at h
  by_cases hh : jsonHashable v
  · rw [if_pos hh] at h
    injection h with h2
    rw [← h2]
    exact counterTotal_bump c v
  · rw [if_neg hh] at h
    cases h

theorem catDataAppend_eq (cd : CatData) (k : String) (t : String)
    (hk : (cd.map Prod.fst).contains k = true) :
    catDataAppend cd (.str k) t
      = .ok (cd.map (fun p => if p.1 = k then (p.1, p.2 ++ [t]) else p)) := by
  show (if (cd.map Prod.fst).contains k = true then
      Except.ok (cd.map (fun p => if p.1 = k then (p.1, p.2 ++ [t]) else p))
    else Except.error (PyErr.keyError k)) = _
  rw [if_pos hk]

theorem catDataAppend_keys (cd : CatData) (cat : JsonVal) (t : String) (cd' : CatData)
    (h : catDataAppend cd cat t = .ok cd') : cd'.map Prod.fst = cd.map Prod.fst := by
  unfold catDataAppend at h
  by_cases hh : jsonHashable cat
  · rw [if_pos hh] at h
    cases cat with
    | str k =>
      have h' : (if (cd.map Prod.fst).contains k = true then
          Except.ok (cd.map (fun p => if p.1 = k then (p.1, p.2 ++ [t]) else p))
        else Except.error (PyErr.keyError k)) = Except.ok cd' := h
      by_cases hk : (cd.map Prod.fst).contains k = true
      · rw [if_pos hk] at h'
        injection h' with h2
        rw [← h2, List.map_map]
        apply List.map_congr_left
        intro p _
        by_cases hp : p.1 = k <;> simp [hp]
      · rw [if_neg hk] at h'
        cases h'
    | num n => cases h
    | bool b => cases h
    | null => cases h
    | arr xs => cases h
    | obj kvs => cases h
  · rw [if_neg hh] at h
    cases h

theorem catDataTotal_update (cd : CatData) (k : String) (t : String)
    (hnd : (cd.map Prod.fst).Nodup) (hk : k ∈ cd.map Prod.fst) :
    catDataTotal (cd.map (fun p => if p.1 = k then (p.1, p.2 ++ [t]) else p))
      = catDataTotal cd + 1 := by
  induction cd with
  | nil => simp at hk
  | cons hd tl ih =>
    rw [List.map_cons, List.nodup_cons] at hnd
    obtain ⟨h1, h2⟩ := hnd
    rw [List.map_cons, List.mem_cons] at hk
    by_cases he : hd.1 = k
    · have hnotin : ∀ p ∈ tl, ¬(p.1 = k) := by
        intro p hp hc
        apply h1
        rw [he, ← hc]
        exact List.mem_map_of_mem Prod.fst hp
      have htl : tl.map (fun p => if p.1 = k then (p.1, p.2 ++ [t]) else p) = tl :=
        map_id_of_eq tl _ (fun p hp => by rw [if_neg (hnotin p hp)])
      rw [List.map_cons, if_pos he, htl]
      unfold catDataTotal
      simp only [List.map_cons, List.sum_cons, List.length_append, List.length_cons,
        List.length_nil]
      omega
    · rcases hk with hk | hk
      · exact absurd hk.symm he
      · rw [List.map_cons, if_neg he]
        unfold catDataTotal at ih ⊢
        simp only [List.map_cons, List.sum_cons]
        rw [ih h2 hk]
        omega

theorem catDataTotal_append (cd : CatData) (cat : JsonVal) (t : String) (cd' : CatData)
    (hnd : (cd.map Prod.fst).Nodup)
    (h : catDataAppend cd cat t = .ok cd') : catDataTotal cd' = catDataTotal cd + 1 := by
  unfold catDataAppend at h
  by_cases hh : jsonHashable cat
  · rw [if_pos hh] at h
    cases cat with
    | str k =>
      have h' : (if (cd.map Prod.fst).contains k = true then
          Except.ok (cd.map (fun p => if p.1 = k then (p.1, p.2 ++ [t]) else p))
        else Except.error (PyErr.keyError k)) = Except.ok cd' := h
      by_cases hk : (cd.map Prod.fst).contains k = true
      · rw [if_pos hk] at h'
        injection h' with h2
        rw [← h2]
        exact catDataTotal_update cd k t hnd (by simpa using hk)
      · rw [if_neg hk] at h'
        cases h'
    | num n => cases h
    | bool b => cases h
    | null => cases h
    | arr xs => cases h
    | obj kvs => cases h
  · rw [if_neg hh] at h
    cases h

/-! ## The annotated copy and the row loop -/

theorem initProcessed_aligned (df : Frame) (hal : df.aligned) : (initProcessed df).aligned :=
  setColumnConst_aligned _ _ _ (setColumnConst_aligned _ _ _ (setColumnConst_aligned _ _ _ hal))

theorem initProcessed_rows_length (df : Frame) :
    (initProcessed df).rows.length = df.rows.length := by
  unfold initProcessed
  rw [setColumnConst_rows_length, setColumnConst_rows_length, setColumnConst_rows_length]

theorem initProcessed_cols_mem (df : Frame) :
    ColKey.str "sentiment" ∈ (initProcessed df).cols
    ∧ ColKey.str "category" ∈ (initProcessed df).cols
    ∧ ColKey.str "key_points" ∈ (initProcessed df).cols := by
  unfold initProcessed
  refine ⟨?_, ?_, ?_⟩
  · exact setColumnConst_cols_mono _ _ _ _
      (setColumnConst_cols_mono _ _ _ _ (setColumnConst_cols_mem _ _ _))
  · exact setColumnConst_cols_mono _ _ _ _ (setColumnConst_cols_mem _ _ _)
  · exact setColumnConst_cols_mem _ _ _

theorem initProcessed_defaults (df : Frame) (hal : df.aligned) (i : Nat)
    (hi : i < df.rows.length) :
    getCellByKey (initProcessed df) i (.str "sentiment") = some (.str "neutral")
    ∧ getCellByKey (initProcessed df) i (.str "category") = some (.str "other")
    ∧ getCellByKey (initProcessed df) i (.str "key_points") = some (.arr []) := by
  have hal1 := setColumnConst_aligned df (.str "sentiment") (.str "neutral") hal
  have hal2 := setColumnConst_aligned _ (.str "category") (.str "other") hal1
  have hlen1 : (setColumnConst df (.str "sentiment") (.str "neutral")).rows.length
      = df.rows.length := setColumnConst_rows_length _ _ _
  have hlen2 : (setColumnConst (setColumnConst df (.str "sentiment") (.str "neutral"))
      (.str "category") (.str "other")).rows.length = df.rows.length := by
    rw [setColumnConst_rows_length, hlen1]
  unfold initProcessed
  refine ⟨?_, ?_, ?_⟩
  · rw [setColumnConst_cell_ne _ _ _ _ _ hal2 (by decide)]
    rw [setColumnConst_cell_ne _ _ _ _ _ hal1 (by decide)]
    exact setColumnConst_cell_self df _ _ i hal hi
  · rw [setColumnConst_cell_ne _ _ _ _ _ hal2 (by decide)]
    exact setColumnConst_cell_self _ _ _ i hal1 (by omega)
  · exact setColumnConst_cell_self _ _ _ i hal2 (by omega)

theorem initProcessed_fresh (df : Frame)
    (h1 : ColKey.str "sentiment" ∉ df.cols) (h2 : ColKey.str "category" ∉ df.cols)
    (h3 : ColKey.str "key_points" ∉ df.cols) :
    initProcessed df
      = { cols := df.cols ++ [.str "sentiment", .str "category", .str "key_points"],
          rows := df.rows.map (fun row => row ++ [.str "neutral", .str "other", .arr []]) } := by
  have hc2 : ColKey.str "category" ∉ df.cols ++ [ColKey.str "sentiment"] := by
    intro hmem
    rcases List.mem_append.mp hmem with hc | hc
    · exact h2 hc
    · simp at hc
  have hc3 : ColKey.str "key_points"
      ∉ (df.cols ++ [ColKey.str "sentiment"]) ++ [ColKey.str "category"] := by
    intro hmem
    rcases List.mem_append.mp hmem with hc | hc
    · rcases List.mem_append.mp hc with hcc | hcc
      · exact h3 hcc
      · simp at hcc
    · simp at hc
  unfold initProcessed
  rw [setColumnConst_fresh df _ _ h1]
  rw [setColumnConst_fresh _ (ColKey.str "category") _ hc2]
  rw [setColumnConst_fresh _ (ColKey.str "key_points") _ hc3]
  simp [List.map_map, List.append_assoc, Function.comp]

theorem processRow_blank (cap : Capability) (df : Frame) (fc : ColKey) (st : RowState)
    (idx : Nat) (row : List JsonVal)
    (hb : pyBlank (pyStr (rowValue df.cols row fc)) = true) :
    processRow cap df fc st idx row = .ok st := by
  unfold processRow
  rw [if_pos hb]

theorem processRow_ok_nonblank (cap : Capability) (df : Frame) (fc : ColKey) (st : RowState)
    (idx : Nat) (row : List JsonVal) (st' : RowState)
    (h : processRow cap df fc st idx row = .ok st')
    (hb : pyBlank (pyStr (rowValue df.cols row fc)) = false) :
    ∃ kvs, process_single_feedback (pyStr (rowValue df.cols row fc)) cap = .obj kvs
    ∧ counterIncr st.sdist (dictGet kvs "sentiment" (.str "neutral")) = .ok st'.sdist
    ∧ counterIncr st.cdist (dictGet kvs "category" (.str "other")) = .ok st'.cdist
    ∧ catDataAppend st.catData (dictGet kvs "category" (.str "other"))
        (pyStr (rowValue df.cols row fc)) = .ok st'.catData
    ∧ st'.processed =
        setCellAt (setCellAt (setCellAt st.processed idx (.str "sentiment")
            (dictGet kvs "sentiment" (.str "neutral")))
          idx (.str "category") (dictGet kvs "category" (.str "other")))
          idx (.str "key_points") (dictGet kvs "key_points" (.arr [])) := by
  unfold processRow at h
  rw [if_neg (by simp [hb])] at h
  cases har : process_single_feedback (pyStr (rowValue df.cols row fc)) cap with
  | obj kvs =>
    simp only [har] at h
    refine ⟨kvs, rfl, ?_⟩
    cases hs : counterIncr st.sdist (dictGet kvs "sentiment" (.str "neutral")) with
    | error e => simp only [hs] at h; exact Except.noConfusion h
    | ok sd =>
      simp only [hs] at h
      cases hcn : counterIncr st.cdist (dictGet kvs "category" (.str "other")) with
      | error e => simp only [hcn] at h; exact Except.noConfusion h
      | ok cdd =>
        simp only [hcn] at h
        cases hcd : catDataAppend st.catData (dictGet kvs "category" (.str "other"))
            (pyStr (rowValue df.cols row fc)) with
        | error e => simp only [hcd] at h; exact Except.noConfusion h
        | ok cdata =>
          simp only [hcd] at h
          injection h with h2
          rw [← h2]
          exact ⟨rfl, rfl, rfl, rfl⟩
  | str s => simp only [har] at h; exact Except.noConfusion h
  | num n => simp only [har] at h; exact Except.noConfusion h
  | bool b => simp only [har] at h; exact Except.noConfusion h
  | null => simp only [har] at h; exact Except.noConfusion h
  | arr xs => simp only [har] at h; exact Except.noConfusion h

theorem processRow_frame_inv (cap : Capability) (df : Frame) (fc : ColKey) (st : RowState)
    (idx : Nat) (row : List JsonVal) (st' : RowState)
    (h : processRow cap df fc st idx row = .ok st') :
    st'.processed.cols = st.processed.cols
    ∧ st'.processed.rows.length = st.processed.rows.length
    ∧ (st.processed.aligned → st'.processed.aligned) := by
  by_cases hb : pyBlank (pyStr (rowValue df.cols row fc))
  · rw [processRow_blank cap df fc st idx row hb] at h
    injection h with h2
    rw [← h2]
    exact ⟨rfl, rfl, fun hal => hal⟩
  · obtain ⟨kvs, har, hs, hcn, hcd, hp⟩ :=
      processRow_ok_nonblank cap df fc st idx row st' h (by simpa using hb)
    rw [hp]
    refine ⟨?_, ?_, ?_⟩
    · rw [setCellAt_cols, setCellAt_cols, setCellAt_cols]
    · rw [setCellAt_rows_length, setCellAt_rows_length, setCellAt_rows_length]
    · intro hal
      exact setCellAt_aligned _ _ _ _ (setCellAt_aligned _ _ _ _ (setCellAt_aligned _ _ _ _ hal))

theorem processRow_untouched (cap : Capability) (df : Frame) (fc : ColKey) (st : RowState)
    (idx : Nat) (row : List JsonVal) (st' : RowState)
    (h : processRow cap df fc st idx row = .ok st') (j : Nat) (hj : j ≠ idx) :
    st'.processed.rows.get? j = st.processed.rows.get? j := by
  by_cases hb : pyBlank (pyStr (rowValue df.cols row fc))
  · rw [processRow_blank cap df fc st idx row hb] at h
    injection h with h2
    rw [← h2]
  · obtain ⟨kvs, har, hs, hcn, hcd, hp⟩ :=
      processRow_ok_nonblank cap df fc st idx row st' h (by simpa using hb)
    rw [hp]
    rw [setCellAt_get_ne _ _ _ _ _ hj, setCellAt_get_ne _ _ _ _ _ hj,
      setCellAt_get_ne _ _ _ _ _ hj]

theorem processRows_frame_inv (cap : Capability) (df : Frame) (fc : ColKey) :
    ∀ (l : List (Nat × List JsonVal)) (st st' : RowState),
    processRows cap df fc l st = .ok st' →
    st'.processed.cols = st.processed.cols
    ∧ st'.processed.rows.length = st.processed.rows.length
    ∧ (st.processed.aligned → st'.processed.aligned) := by
  intro l
  induction l with
  | nil =>
    intro st st' h
    injection h with h2
    rw [← h2]
    exact ⟨rfl, rfl, fun hal => hal⟩
  | cons hd tl ih =>
    intro st st' h
    obtain ⟨i0, r0⟩ := hd
    unfold processRows at h
    cases hstep : processRow cap df fc st i0 r0 with
    | error e => simp only [hstep] at h; exact Except.noConfusion h
    | ok st1 =>
      simp only [hstep] at h
      obtain ⟨hc1, hl1, ha1⟩ := processRow_frame_inv cap df fc st i0 r0 st1 hstep
      obtain ⟨hc2, hl2, ha2⟩ := ih st1 st' h
      exact ⟨hc2.trans hc1, hl2.trans hl1, fun hal => ha2 (ha1 hal)⟩

theorem processRows_untouched (cap : Capability) (df : Frame) (fc : ColKey) :
    ∀ (l : List (Nat × List JsonVal)) (st st' : RowState) (j : Nat),
    processRows cap df fc l st = .ok st' →
    (∀ p ∈ l, p.1 ≠ j) →
    st'.processed.rows.get? j = st.processed.rows.get? j := by
  intro l
  induction l with
  | nil =>
    intro st st' j h _
    injection h with h2
    rw [← h2]
  | cons hd tl ih =>
    intro st st' j h hall
    obtain ⟨i0, r0⟩ := hd
    unfold processRows at h
    cases hstep : processRow cap df fc st i0 r0 with
    | error e => simp only [hstep] at h; exact Except.noConfusion h
    | ok st1 =>
      simp only [hstep] at h
      have h1 := processRow_untouched cap df fc st i0 r0 st1 hstep j
        (fun hc => hall (i0, r0) (List.mem_cons_self _ _) hc.symm)
      have h2 := ih st1 st' j h (fun p hp => hall p (List.mem_cons_of_mem _ hp))
      rw [h2, h1]

theorem processRows_blank_row (cap : Capability) (df : Frame) (fc : ColKey) :
    ∀ (l : List (Nat × List JsonVal)) (st st' : RowState) (j : Nat) (row : List JsonVal),
    processRows cap df fc l st = .ok st' →
    (l.map Prod.fst).Nodup →
    (j, row) ∈ l →
    pyBlank (pyStr (rowValue df.cols row fc)) = true →
    st'.processed.rows.get? j = st.processed.rows.get? j := by
  intro l
  induction l with
  | nil =>
    intro st st' j row _ _ hmem _
    cases hmem
  | cons hd tl ih =>
    intro st st' j row h hnd hmem hb
    obtain ⟨i0, r0⟩ := hd
    rw [List.map_cons, List.nodup_cons] at hnd
    obtain ⟨hn1, hn2⟩ := hnd
    unfold processRows at h
    cases hstep : processRow cap df fc st i0 r0 with
    | error e => simp only [hstep] at h; exact Except.noConfusion h
    | ok st1 =>
      simp only [hstep] at h
      rcases List.mem_cons.mp hmem with heq | hmem2
      · have hji : j = i0 := by
          have := congrArg Prod.fst heq
          simpa using this
        have hri : row = r0 := by
          have := congrArg Prod.snd heq
          simpa using this
        subst hji
        subst hri
        rw [processRow_blank cap df fc st j row hb] at hstep
        injection hstep with h2
        subst h2
        exact processRows_untouched cap df fc tl st st' j h
          (fun p hp hc => hn1 (by rw [← hc]; exact List.mem_map.mpr ⟨p, hp, rfl⟩))
      · have hji : j ≠ i0 := by
          intro hc
          subst hc
          exact hn1 (List.mem_map.mpr ⟨(j, row), hmem2, rfl⟩)
        have h1 := processRow_untouched cap df fc st i0 r0 st1 hstep j hji
        rw [ih st1 st' j row h hn2 hmem2 hb, h1]

theorem processRows_totals (cap : Capability) (df : Frame) (fc : ColKey) :
    ∀ (l : List (Nat × List JsonVal)) (st st' : RowState),
    processRows cap df fc l st = .ok st' →
    (st.catData.map Prod.fst).Nodup →
    counterTotal st'.sdist
        = counterTotal st.sdist + l.countP (fun p => !pyBlank (pyStr (rowValue df.cols p.2 fc)))
    ∧ counterTotal st'.cdist
        = counterTotal st.cdist + l.countP (fun p => !pyBlank (pyStr (rowValue df.cols p.2 fc)))
    ∧ catDataTotal st'.catData
        = catDataTotal st.catData + l.countP (fun p => !pyBlank (pyStr (rowValue df.cols p.2 fc)))
    ∧ st'.catData.map Prod.fst = st.catData.map Prod.fst := by
  intro l
  induction l with
  | nil =>
    intro st st' h _
    injection h with h2
    rw [← h2]
    simp
  | cons hd tl ih =>
    intro st st' h hnd
    obtain ⟨i0, r0⟩ := hd
    unfold processRows at h
    cases hstep : processRow cap df fc st i0 r0 with
    | error e => simp only [hstep] at h; exact Except.noConfusion h
    | ok st1 =>
      simp only [hstep] at h
      by_cases hb : pyBlank (pyStr (rowValue df.cols r0 fc))
    
      · rw [processRow_blank cap df fc st i0 r0 hb] at hstep
        injection hstep with h2
        subst h2
        obtain ⟨t1, t2, t3, t4⟩ := ih st st' h hnd
        rw [List.countP_cons]
        simp only [hb, Bool.not_true, Bool.false_eq_true, if_false]
        refine ⟨by omega, by omega, by omega, t4⟩
      · have hbf : pyBlank (pyStr (rowValue df.cols r0 fc)) = false := by simpa using hb
        obtain ⟨kvs, har, hs, hcn, hcd, hp⟩ :=
          processRow_ok_nonblank cap df fc st i0 r0 st1 hstep hbf
        have hkeys := catDataAppend_keys st.catData _ _ st1.catData hcd
        have hnd1 : (st1.catData.map Prod.fst).Nodup := by rw [hkeys]; exact hnd
        obtain ⟨t1, t2, t3, t4⟩ := ih st1 st' h hnd1
        have d1 := counterIncr_total _ _ _ hs
        have d2 := counterIncr_total _ _ _ hcn
        have d3 := catDataTotal_append _ _ _ _ hnd hcd
        rw [List.countP_cons]
        simp only [hbf, Bool.not_false, if_true]
        refine ⟨by omega, by omega, by omega, t4.trans hkeys⟩

theorem processRow_agree (cap cap2 : Capability) (df : Frame) (fc : ColKey) (st : RowState)
    (idx : Nat) (row : List JsonVal)
    (h : ∀ s, pyBlank s = false → cap.classify s = cap2.classify s) :
    processRow cap df fc st idx row = processRow cap2 df fc st idx row := by
  unfold processRow
  by_cases hb : pyBlank (pyStr (rowValue df.cols row fc))
  · rw [if_pos hb, if_pos hb]
  · rw [if_neg hb, if_neg hb]
    unfold process_single_feedback
    rw [h _ (by simpa using hb)]

theorem processRows_agree (cap cap2 : Capability) (df : Frame) (fc : ColKey)
    (h : ∀ s, pyBlank s = false → cap.classify s = cap2.classify s) :
    ∀ (l : List (Nat × List JsonVal)) (st : RowState),
    processRows cap df fc l st = processRows cap2 df fc l st := by
  intro l
  induction l with
  | nil => intro st; rfl
  | cons hd tl ih =>
    intro st
    obtain ⟨i0, r0⟩ := hd
    unfold processRows
    rw [processRow_agree cap cap2 df fc st i0 r0 h]
    cases processRow cap2 df fc st i0 r0 with
    | error e => rfl
    | ok st1 => exact ih st1

theorem gcs_agree (cd : CatData) (cap cap2 : Capability)
    (h : cap.summarize = cap2.summarize) :
    generate_category_summaries cd cap = generate_category_summaries cd cap2 := by
  unfold generate_category_summaries
  rw [h]

theorem gis_agree (cd : CatData) (cap cap2 : Capability) (h : cap.suggest = cap2.suggest) :
    generate_improvement_suggestions cd cap = generate_improvement_suggestions cd cap2 := by
  unfold generate_improvement_suggestions
  rw [h]

theorem mkResults_agree (cap cap2 : Capability) (su sg : Bool) (st : RowState)
    (hsum : cap.summarize = cap2.summarize) (hsug : cap.suggest = cap2.suggest) :
    mkResults cap su sg st = mkResults cap2 su sg st := by
  unfold mkResults
  rw [gcs_agree st.catData cap cap2 hsum, gis_agree st.catData cap cap2 hsug]

theorem process_feedback_agree (df : Frame) (cap cap2 : Capability) (b1 b2 su sg : Bool)
    (h : ∀ s, pyBlank s = false → cap.classify s = cap2.classify s)
    (hsum : cap.summarize = cap2.summarize) (hsug : cap.suggest = cap2.suggest) :
    process_feedback df cap b1 b2 su sg = process_feedback df cap2 b1 b2 su sg := by
  unfold process_feedback
  cases infer_feedback_column df with
  | error e => rfl
  | ok fc =>
    show (match processRows cap df fc df.rows.enum (initRowState df) with
      | Except.error e => Except.error e
      | Except.ok st => Except.ok (mkResults cap su sg st))
      = (match processRows cap2 df fc df.rows.enum (initRowState df) with
      | Except.error e => Except.error e
      | Except.ok st => Except.ok (mkResults cap2 su sg st))
    rw [processRows_agree cap cap2 df fc h]
    cases processRows cap2 df fc df.rows.enum (initRowState df) with
    | error e => rfl
    | ok st =>
      show Except.ok (mkResults cap su sg st) = Except.ok (mkResults cap2 su sg st)
      rw [mkResults_agree cap cap2 su sg st hsum hsug]

/-- The well-formedness condition on successful classifications that the
amended C3 assumes: the result is a JSON object, its sentiment value is
hashable, and its category value is one of the seven known categories. -/
def wellFormedResult (v : JsonVal) : Prop :=
  ∃ kvs, v = .obj kvs
    ∧ jsonHashable (dictGet kvs "sentiment" (.str "neutral")) = true
    ∧ dictGet kvs "category" (.str "other") ∈ knownCategories.map JsonVal.str

theorem psf_wellFormed (cap : Capability)
    (hcap : ∀ t v, cap.classify t = .ok v → wellFormedResult v) (t : String) :
    ∃ kvs, process_single_feedback t cap = .obj kvs
    ∧ jsonHashable (dictGet kvs "sentiment" (.str "neutral")) = true
    ∧ dictGet kvs "category" (.str "other") ∈ knownCategories.map JsonVal.str := by
  unfold process_single_feedback
  cases hc : cap.classify t with
  | ok v =>
    obtain ⟨kvs, hv, hs, hcat⟩ := hcap t v hc
    exact ⟨kvs, hv, hs, hcat⟩
  | error e =>
    refine ⟨[("sentiment", .str "neutral"), ("category", .str "other"),
             ("key_points", .arr [.str "Could not extract key points"])], rfl, rfl, ?_⟩
    simp [knownCategories, dictGet, jLookup]

theorem initCatData_keys : initCatData.map Prod.fst = knownCategories := by
  simp [initCatData, knownCategories]

theorem processRows_complete (cap : Capability) (df : Frame) (fc : ColKey)
    (hcap : ∀ t v, cap.classify t = .ok v → wellFormedResult v) :
    ∀ (l : List (Nat × List JsonVal)) (st : RowState),
    st.catData.map Prod.fst = knownCategories →
    ∃ st', processRows cap df fc l st = .ok st'
      ∧ st'.catData.map Prod.fst = knownCategories := by
  intro l
  induction l with
  | nil =>
    intro st hkeys
    exact ⟨st, rfl, hkeys⟩
  | cons hd tl ih =>
    intro st hkeys
    obtain ⟨i0, r0⟩ := hd
    by_cases hb : pyBlank (pyStr (rowValue df.cols r0 fc))
    · obtain ⟨st', hst', hkeys'⟩ := ih st hkeys
      refine ⟨st', ?_, hkeys'⟩
      unfold processRows
      rw [processRow_blank cap df fc st i0 r0 hb]
      exact hst'
    · have hbf : pyBlank (pyStr (rowValue df.cols r0 fc)) = false := by simpa using hb
      obtain ⟨kvs, hpsf, hsent, hcat⟩ := psf_wellFormed cap hcap (pyStr (rowValue df.cols r0 fc))
      obtain ⟨k, hk, hkval⟩ := List.mem_map.mp hcat
      have hkc : (st.catData.map Prod.fst).contains k = true := by
        rw [hkeys]
        simpa using hk
      have hstep : processRow cap df fc st i0 r0 = .ok
          { processed := setCellAt (setCellAt (setCellAt st.processed i0 (.str "sentiment")
                (dictGet kvs "sentiment" (.str "neutral")))
              i0 (.str "category") (dictGet kvs "category" (.str "other")))
              i0 (.str "key_points") (dictGet kvs "key_points" (.arr [])),
            sdist := bumpCount st.sdist (dictGet kvs "sentiment" (.str "neutral")),
            cdist := bumpCount st.cdist (dictGet kvs "category" (.str "other")),
            catData := st.catData.map
              (fun p => if p.1 = k then (p.1, p.2 ++ [pyStr (rowValue df.cols r0 fc)]) else p) } := by
        unfold processRow
        rw [if_neg (by simp [hbf])]
        simp only [hpsf]
        rw [counterIncr_ok _ _ hsent]
        rw [counterIncr_ok _ _ (by rw [← hkval]; rfl)]
        rw [← hkval, catDataAppend_eq st.catData k _ hkc]
      have hkeys1 : (st.catData.map
          (fun p => if p.1 = k then (p.1, p.2 ++ [pyStr (rowValue df.cols r0 fc)]) else p)).map
            Prod.fst = knownCategories := by
        rw [List.map_map]
        rw [show ((Prod.fst ∘ fun p : String × List String =>
            if p.1 = k then (p.1, p.2 ++ [pyStr (rowValue df.cols r0 fc)]) else p))
          = Prod.fst from ?_, hkeys]
        funext p
        by_cases hp : p.1 = k <;> simp [hp, Function.comp]
      obtain ⟨st', hst', hkeys'⟩ := ih
        { processed := setCellAt (setCellAt (setCellAt st.processed i0 (.str "sentiment")
              (dictGet kvs "sentiment" (.str "neutral")))
            i0 (.str "category") (dictGet kvs "category" (.str "other")))
            i0 (.str "key_points") (dictGet kvs "key_points" (.arr [])),
          sdist := bumpCount st.sdist (dictGet kvs "sentiment" (.str "neutral")),
          cdist := bumpCount st.cdist (dictGet kvs "category" (.str "other")),
          catData := st.catData.map
            (fun p => if p.1 = k then (p.1, p.2 ++ [pyStr (rowValue df.cols r0 fc)]) else p) }
        hkeys1
      refine ⟨st', ?_, hkeys'⟩
      unfold processRows
      rw [hstep]
      exact hst'

theorem psf_error (cap : Capability) (t : String) (e : String)
    (h : cap.classify t = .error e) :
    process_single_feedback t cap = defaultClassification := by
  unfold process_single_feedback
  rw [h]

theorem processRows_default_cells (cap : Capability) (df : Frame) (fc : ColKey) :
    ∀ (l : List (Nat × List JsonVal)) (st st' : RowState) (j : Nat) (row : List JsonVal),
    processRows cap df fc l st = .ok st' →
    (l.map Prod.fst).Nodup →
    (j, row) ∈ l →
    pyBlank (pyStr (rowValue df.cols row fc)) = false →
    (∃ e, cap.classify (pyStr (rowValue df.cols row fc)) = .error e) →
    st.processed.aligned →
    ColKey.str "sentiment" ∈ st.processed.cols →
    ColKey.str "category" ∈ st.processed.cols →
    ColKey.str "key_points" ∈ st.processed.cols →
    j < st.processed.rows.length →
    getCellByKey st'.processed j (.str "sentiment") = some (.str "neutral")
    ∧ getCellByKey st'.processed j (.str "category") = some (.str "other")
    ∧ getCellByKey st'.processed j (.str "key_points")
        = some (.arr [.str "Could not extract key points"]) := by
  intro l
  induction l with
  | nil =>
    intro st st' j row _ _ hmem
    cases hmem
  | cons hd tl ih =>
    intro st st' j row h hnd hmem hb herr hal hm1 hm2 hm3 hj
    obtain ⟨i0, r0⟩ := hd
    rw [List.map_cons, List.nodup_cons] at hnd
    obtain ⟨hn1, hn2⟩ := hnd
    unfold processRows at h
    cases hstep : processRow cap df fc st i0 r0 with
    | error e => simp only [hstep] at h; exact Except.noConfusion h
    | ok st1 =>
      simp only [hstep] at h
      rcases List.mem_cons.mp hmem with heq | hmem2
      · have hji : j = i0 := by simpa using congrArg Prod.fst heq
        have hri : row = r0 := by simpa using congrArg Prod.snd heq
        subst hji
        subst hri
        obtain ⟨e, he⟩ := herr
        obtain ⟨kvs, har, hs, hcn, hcd, hp⟩ :=
          processRow_ok_nonblank cap df fc st j row st1 hstep hb
        rw [psf_error cap _ e he] at har
        injection har with hkvs
        subst hkvs
        have hvs : dictGet [("sentiment", JsonVal.str "neutral"),
            ("category", JsonVal.str "other"),
            ("key_points", JsonVal.arr [JsonVal.str "Could not extract key points"])]
            "sentiment" (.str "neutral") = JsonVal.str "neutral" := rfl
        have hvc : dictGet [("sentiment", JsonVal.str "neutral"),
            ("category", JsonVal.str "other"),
            ("key_points", JsonVal.arr [JsonVal.str "Could not extract key points"])]
            "category" (.str "other") = JsonVal.str "other" := rfl
        have hvk : dictGet [("sentiment", JsonVal.str "neutral"),
            ("category", JsonVal.str "other"),
            ("key_points", JsonVal.arr [JsonVal.str "Could not extract key points"])]
            "key_points" (.arr []) = JsonVal.arr [JsonVal.str "Could not extract key points"] := rfl
        rw [hvs, hvc, hvk] at hp
        have hal1 : (setCellAt st.processed j (.str "sentiment") (.str "neutral")).aligned :=
          setCellAt_aligned _ _ _ _ hal
        have hal2 : (setCellAt (setCellAt st.processed j (.str "sentiment") (.str "neutral"))
            j (.str "category") (.str "other")).aligned := setCellAt_aligned _ _ _ _ hal1
        have hcells :
            getCellByKey st1.processed j (.str "sentiment") = some (.str "neutral")
            ∧ getCellByKey st1.processed j (.str "category") = some (.str "other")
            ∧ getCellByKey st1.processed j (.str "key_points")
                = some (.arr [.str "Could not extract key points"]) := by
          rw [hp]
          refine ⟨?_, ?_, ?_⟩
          · rw [setCellAt_cell_ne_key _ _ _ _ _ _ (by decide),
              setCellAt_cell_ne_key _ _ _ _ _ _ (by decide)]
            exact setCellAt_cell_self st.processed j _ _ hal hm1 hj
          · rw [setCellAt_cell_ne_key _ _ _ _ _ _ (by decide)]
            refine setCellAt_cell_self _ j _ _ hal1 ?_ ?_
            · rw [setCellAt_cols]; exact hm2
            · rw [setCellAt_rows_length]; exact hj
          · refine setCellAt_cell_self _ j _ _ hal2 ?_ ?_
            · rw [setCellAt_cols, setCellAt_cols]; exact hm3
            · rw [setCellAt_rows_length, setCellAt_rows_length]; exact hj
        have hcoleq := (processRows_frame_inv cap df fc tl st1 st' h).1
        have hroweq := processRows_untouched cap df fc tl st1 st' j h
          (fun p hp2 hc => hn1 (by rw [← hc]; exact List.mem_map.mpr ⟨p, hp2, rfl⟩))
        have hcell_eq : ∀ k2, getCellByKey st'.processed j k2 = getCellByKey st1.processed j k2 := by
          intro k2
          unfold getCellByKey
          rw [hroweq, hcoleq]
        rw [hcell_eq, hcell_eq, hcell_eq]
        exact hcells
      · have hji : j ≠ i0 := by
          intro hc
          subst hc
          exact hn1 (List.mem_map.mpr ⟨(j, row), hmem2, rfl⟩)
        obtain ⟨hc1, hl1, ha1⟩ := processRow_frame_inv cap df fc st i0 r0 st1 hstep
        exact ih st1 st' j row h hn2 hmem2 hb herr (ha1 hal)
          (by rw [hc1]; exact hm1) (by rw [hc1]; exact hm2) (by rw [hc1]; exact hm3)
          (by rw [hl1]; exact hj)

theorem setCellAt_take_cond (f : Frame) (i : Nat) (k : ColKey) (v : JsonVal) (n : Nat)
    (hk : ∀ ci, colIndex f.cols k = some ci → n ≤ ci) (j : Nat) :
    ((setCellAt f i k v).rows.get? j).map (List.take n) = (f.rows.get? j).map (List.take n) := by
  cases hc : colIndex f.cols k with
  | none => rw [setCellAt_eq_id_of_none_col f i k v hc]
  | some ci => exact setCellAt_take f i k v n ci hc (hk ci hc) j

theorem processRows_take (cap : Capability) (df : Frame) (fc : ColKey) (n : Nat) :
    ∀ (l : List (Nat × List JsonVal)) (st st' : RowState),
    processRows cap df fc l st = .ok st' →
    (∀ ci, colIndex st.processed.cols (.str "sentiment") = some ci → n ≤ ci) →
    (∀ ci, colIndex st.processed.cols (.str "category") = some ci → n ≤ ci) →
    (∀ ci, colIndex st.processed.cols (.str "key_points") = some ci → n ≤ ci) →
    ∀ j, (st'.processed.rows.get? j).map (List.take n)
      = (st.processed.rows.get? j).map (List.take n) := by
  intro l
  induction l with
  | nil =>
    intro st st' h _ _ _ j
    injection h with h2
    rw [← h2]
  | cons hd tl ih =>
    intro st st' h hk1 hk2 hk3 j
    obtain ⟨i0, r0⟩ := hd
    unfold processRows at h
    cases hstep : processRow cap df fc st i0 r0 with
    | error e => simp only [hstep] at h; exact Except.noConfusion h
    | ok st1 =>
      simp only [hstep] at h
      obtain ⟨hc1, hl1, ha1⟩ := processRow_frame_inv cap df fc st i0 r0 st1 hstep
      have hstep_take : ∀ j2, (st1.processed.rows.get? j2).map (List.take n)
          = (st.processed.rows.get? j2).map (List.take n) := by
        intro j2
        by_cases hb : pyBlank (pyStr (rowValue df.cols r0 fc))
        · rw [processRow_blank cap df fc st i0 r0 hb] at hstep
          injection hstep with h2
          rw [← h2]
        · obtain ⟨kvs, har, hs, hcn, hcd, hp⟩ :=
            processRow_ok_nonblank cap df fc st i0 r0 st1 hstep (by simpa using hb)
          rw [hp]
          rw [setCellAt_take_cond _ _ _ _ n (by
            intro ci hci
            rw [setCellAt_cols, setCellAt_cols] at hci
            exact hk3 ci hci) j2]
          rw [setCellAt_take_cond _ _ _ _ n (by
            intro ci hci
            rw [setCellAt_cols] at hci
            exact hk2 ci hci) j2]
          exact setCellAt_take_cond _ _ _ _ n hk1 j2
      rw [ih st1 st' h (by rw [hc1]; exact hk1) (by rw [hc1]; exact hk2)
        (by rw [hc1]; exact hk3) j, hstep_take j]

/-! ## C5: blank rows are skipped but retained -/

/-- Number of rows whose feedback value is non-blank. -/
def nonBlankCount (df : Frame) (fc : ColKey) : Nat :=
  df.rows.countP (fun row => !pyBlank (pyStr (rowValue df.cols row fc)))

theorem enum_countP (df : Frame) (fc : ColKey) :
    df.rows.enum.countP (fun p => !pyBlank (pyStr (rowValue df.cols p.2 fc)))
      = nonBlankCount df fc := by
  unfold nonBlankCount
  conv_rhs => rw [← List.enum_map_snd df.rows]
  rw [List.countP_map]
  rfl

theorem initCatData_total : catDataTotal initCatData = 0 := by
  simp [initCatData, catDataTotal, knownCategories]

theorem initCatData_keys_nodup : (initCatData.map Prod.fst).Nodup := by
  rw [initCatData_keys]
  decide

/-- C5: rows whose feedback value is empty or whitespace-only are excluded
from both distributions and from the per-category sample buffers, yet
retained in the annotated output with the defaults
sentiment="neutral", category="other", key_points=[]; no classification
call is made for such rows (two capabilities agreeing on non-blank texts
produce the same result). -/
theorem c5_blank_rows_skipped (df : Frame) (cap cap2 : Capability) (b1 b2 su sg : Bool)
    (fc : ColKey) (r : Results)
    (hal : df.aligned)
    (hfc : infer_feedback_column df = .ok fc)
    (hok : process_feedback df cap b1 b2 su sg = .ok r)
    (hagree : ∀ s, pyBlank s = false → cap.classify s = cap2.classify s)
    (hsum : cap.summarize = cap2.summarize) (hsug : cap.suggest = cap2.suggest) :
    process_feedback df cap2 b1 b2 su sg = .ok r
    ∧ counterTotal r.sentiment_distribution = nonBlankCount df fc
    ∧ counterTotal r.category_distribution = nonBlankCount df fc
    ∧ (∀ st, processRows cap df fc df.rows.enum (initRowState df) = .ok st →
        catDataTotal st.catData = nonBlankCount df fc)
    ∧ (∀ i, i < df.rows.length →
        pyBlank (pyStr (rowValue df.cols (df.rows.getD i []) fc)) = true →
        getCellByKey r.processed_data i (.str "sentiment") = some (.str "neutral")
        ∧ getCellByKey r.processed_data i (.str "category") = some (.str "other")
        ∧ getCellByKey r.processed_data i (.str "key_points") = some (.arr [])) := by
  refine ⟨by rw [← process_feedback_agree df cap cap2 b1 b2 su sg hagree hsum hsug]; exact hok,
    ?_⟩
  unfold process_feedback at hok
  rw [hfc] at hok
  have hok2 : (match processRows cap df fc df.rows.enum (initRowState df) with
      | Except.error e => Except.error e
      | Except.ok st => Except.ok (mkResults cap su sg st)) = Except.ok r := hok
  cases hst : processRows cap df fc df.rows.enum (initRowState df) with
  | error e => rw [hst] at hok2; exact Except.noConfusion hok2
  | ok st =>
    rw [hst] at hok2
    injection hok2 with hr
    subst hr
    obtain ⟨t1, t2, t3, t4⟩ := processRows_totals cap df fc df.rows.enum (initRowState df) st hst
      initCatData_keys_nodup
    refine ⟨?_, ?_, ?_, ?_⟩
    · show counterTotal st.sdist = _
      have h0 : counterTotal (initRowState df).sdist = 0 := rfl
      rw [t1, enum_countP]
      omega
    · show counterTotal st.cdist = _
      have h0 : counterTotal (initRowState df).cdist = 0 := rfl
      rw [t2, enum_countP]
      omega
    · intro st2 hst2
      injection hst2 with h3
      subst h3
      have h0 : catDataTotal (initRowState df).catData = 0 := initCatData_total
      rw [t3, enum_countP]
      omega
    · intro i hi hbl
      cases hg : df.rows.get? i with
      | none =>
        rw [List.get?_eq_none] at hg
        omega
      | some row0 =>
        have hgd : df.rows.getD i [] = row0 := by
          rw [List.getD_eq_getElem?_getD, ← List.get?_eq_getElem?, hg]
          rfl
        rw [hgd] at hbl
        have hmem : (i, row0) ∈ df.rows.enum := by
          rw [List.mem_enum_iff_get?]
          exact hg
        have hnodup : (df.rows.enum.map Prod.fst).Nodup := by
          rw [List.enum_map_fst]
          exact List.nodup_range df.rows.length
        have hrows := processRows_blank_row cap df fc df.rows.enum (initRowState df) st i row0
          hst hnodup hmem hbl
        have hcols := (processRows_frame_inv cap df fc df.rows.enum (initRowState df) st hst).1
        have hkey : ∀ k2, getCellByKey st.processed i k2
            = getCellByKey (initProcessed df) i k2 := by
          intro k2
          unfold getCellByKey
          rw [hrows, hcols]
          rfl
        obtain ⟨d1, d2, d3⟩ := initProcessed_defaults df hal i hi
        exact ⟨(hkey _).trans d1, (hkey _).trans d2, (hkey _).trans d3⟩

/-- A two-row frame whose second row is whitespace-only. -/
def df2 : Frame :=
  { cols := [.str "feedback"], rows := [[.str "great tour experience"], [.str "   "]] }

/-- The result of processing `df2` with the always-failing capability. -/
def c5res : Results :=
  { sentiment_distribution := [(.str "neutral", 1)],
    category_distribution := [(.str "other", 1)],
    category_summaries := [],
    improvement_suggestions := [],
    processed_data :=
      { cols := [.str "feedback", .str "sentiment", .str "category", .str "key_points"],
        rows := [[.str "great tour experience", .str "neutral", .str "other",
                  .arr [.str "Could not extract key points"]],
                 [.str "   ", .str "neutral", .str "other", .arr []]] } }

/-- Witness for C5 at `df2`: one non-blank and one whitespace row. -/
theorem c5_blank_rows_skipped_witness :
    process_feedback df2 capFail true true false false = .ok c5res
    ∧ counterTotal c5res.sentiment_distribution = nonBlankCount df2 (.str "feedback")
    ∧ getCellByKey c5res.processed_data 1 (.str "key_points") = some (.arr []) := by
  have h := c5_blank_rows_skipped df2 capFail capFail true true false false (.str "feedback")
    c5res (by decide : ∀ row ∈ df2.rows, row.length = df2.cols.length) rfl rfl
    (fun s _ => rfl) rfl rfl
  exact ⟨rfl, h.2.1, ((h.2.2.2.2 1 (by decide) (by decide)).2.2)⟩

/-- C3 (amended): with a column-inferable dataset (non-empty, string column
labels) and a capability whose SUCCESSFUL classifications are JSON objects
with a hashable sentiment and a category among the seven known ones — its
failures arbitrary — `process_feedback` completes without raising, and
every non-blank row whose classification call fails is annotated with the
defaults sentiment="neutral", category="other",
key_points=["Could not extract key points"].  (The amendment, forced by
the counterexample, excludes successful results carrying a category
outside the vocabulary: those raise `KeyError` at
`category_data[category]`.) -/
theorem c3_amended_failures_absorbed (df : Frame) (cap : Capability) (b1 b2 su sg : Bool)
    (hal : df.aligned)
    (hcols : df.cols ≠ []) (hstr : allStrCols df.cols = true)
    (hcap : ∀ t v, cap.classify t = .ok v → wellFormedResult v) :
    ∃ fc r, infer_feedback_column df = .ok fc
    ∧ process_feedback df cap b1 b2 su sg = .ok r
    ∧ (∀ i row, df.rows.get? i = some row →
        pyBlank (pyStr (rowValue df.cols row fc)) = false →
        (∃ e, cap.classify (pyStr (rowValue df.cols row fc)) = .error e) →
        getCellByKey r.processed_data i (.str "sentiment") = some (.str "neutral")
        ∧ getCellByKey r.processed_data i (.str "category") = some (.str "other")
        ∧ getCellByKey r.processed_data i (.str "key_points")
            = some (.arr [.str "Could not extract key points"])) := by
  have hv := findVocabCol_allStr df.cols hstr
  have hinfer : ∃ fc, infer_feedback_column df = .ok fc := by
    unfold infer_feedback_column
    rw [hv]
    cases df.cols.find? vocabPred with
    | some c => exact ⟨c, rfl⟩
    | none =>
      cases findTextCol df df.cols with
      | some c => exact ⟨c, rfl⟩
      | none =>
        cases hh : df.cols.head? with
        | some c => exact ⟨c, rfl⟩
        | none => exact absurd (List.head?_eq_none_iff.mp hh) hcols
  obtain ⟨fc, hfc⟩ := hinfer
  obtain ⟨st, hst, hkeys⟩ := processRows_complete cap df fc hcap df.rows.enum
    (initRowState df) initCatData_keys
  refine ⟨fc, mkResults cap su sg st, hfc, ?_, ?_⟩
  · unfold process_feedback
    rw [hfc]
    show (match processRows cap df fc df.rows.enum (initRowState df) with
      | Except.error e => Except.error e
      | Except.ok st => Except.ok (mkResults cap su sg st)) = _
    rw [hst]
  · intro i row hg hb herr
    have hi : i < df.rows.length := by
      by_contra hh
      rw [List.get?_eq_none.mpr (by omega)] at hg
      cases hg
    have hmem : (i, row) ∈ df.rows.enum := by
      rw [List.mem_enum_iff_get?]
      exact hg
    have hnodup : (df.rows.enum.map Prod.fst).Nodup := by
      rw [List.enum_map_fst]
      exact List.nodup_range df.rows.length
    obtain ⟨m1, m2, m3⟩ := initProcessed_cols_mem df
    have hd := processRows_default_cells cap df fc df.rows.enum (initRowState df) st i row
      hst hnodup hmem hb herr (initProcessed_aligned df hal) m1 m2 m3
      (by show i < (initProcessed df).rows.length; rw [initProcessed_rows_length]; exact hi)
    exact hd

/-- Witness for C3's amended theorem: the always-failing capability on the
one-row frame. -/
theorem c3_amended_failures_absorbed_witness :
    ∃ fc r, infer_feedback_column df1 = .ok fc
    ∧ process_feedback df1 capFail true true true true = .ok r
    ∧ (∀ i row, df1.rows.get? i = some row →
        pyBlank (pyStr (rowValue df1.cols row fc)) = false →
        (∃ e, capFail.classify (pyStr (rowValue df1.cols row fc)) = .error e) →
        getCellByKey r.processed_data i (.str "sentiment") = some (.str "neutral")
        ∧ getCellByKey r.processed_data i (.str "category") = some (.str "other")
        ∧ getCellByKey r.processed_data i (.str "key_points")
            = some (.arr [.str "Could not extract key points"])) :=
  c3_amended_failures_absorbed df1 capFail true true true true
    (by decide : ∀ row ∈ df1.rows, row.length = df1.cols.length)
    (by decide) rfl (fun t v hv => Except.noConfusion hv)

/-- C9 (amended): for input frames that do not already contain a column
named sentiment, category or key_points, the annotated frame has the same
rows in the same order, every original column's values unchanged (each
row's first `|df.cols|` cells equal the original row), and exactly the
three annotation columns appended at the end.  (The amendment, forced by
the counterexample, excludes inputs already carrying one of the three
reserved names: those columns are overwritten in place, not appended.) -/
theorem c9_amended_frame_effect (df : Frame) (cap : Capability) (b1 b2 su sg : Bool)
    (r : Results)
    (hal : df.aligned)
    (h1 : ColKey.str "sentiment" ∉ df.cols)
    (h2 : ColKey.str "category" ∉ df.cols)
    (h3 : ColKey.str "key_points" ∉ df.cols)
    (hok : process_feedback df cap b1 b2 su sg = .ok r) :
    r.processed_data.cols = df.cols ++ [.str "sentiment", .str "category", .str "key_points"]
    ∧ r.processed_data.rows.length = df.rows.length
    ∧ ∀ i, (r.processed_data.rows.get? i).map (List.take df.cols.length) = df.rows.get? i := by
  have hfresh := initProcessed_fresh df h1 h2 h3
  unfold process_feedback at hok
  cases hfc : infer_feedback_column df with
  | error e => rw [hfc] at hok; exact Except.noConfusion hok
  | ok fc =>
    rw [hfc] at hok
    have hok2 : (match processRows cap df fc df.rows.enum (initRowState df) with
        | Except.error e => Except.error e
        | Except.ok st => Except.ok (mkResults cap su sg st)) = Except.ok r := hok
    cases hst : processRows cap df fc df.rows.enum (initRowState df) with
    | error e => rw [hst] at hok2; exact Except.noConfusion hok2
    | ok st =>
      rw [hst] at hok2
      injection hok2 with hr
      subst hr
      obtain ⟨hcols, hlen, _⟩ :=
        processRows_frame_inv cap df fc df.rows.enum (initRowState df) st hst
      have hcols0 : (initRowState df).processed.cols
          = df.cols ++ [.str "sentiment", .str "category", .str "key_points"] := by
        show (initProcessed df).cols = _
        rw [hfresh]
      have hkey : ∀ (key : String) (off : Nat),
          ColKey.str key ∉ df.cols →
          colIndex [ColKey.str "sentiment", ColKey.str "category", ColKey.str "key_points"]
            (ColKey.str key) = some off →
          ∀ ci, colIndex (initRowState df).processed.cols (ColKey.str key) = some ci →
            df.cols.length ≤ ci := by
        intro key off hnot hoff ci hci
        rw [hcols0, colIndex_append, (colIndex_eq_none_iff df.cols _).mpr hnot, hoff] at hci
        simp only [Option.map_some'] at hci
        injection hci with hci2
        omega
      have htake := processRows_take cap df fc df.cols.length df.rows.enum (initRowState df)
        st hst
        (hkey "sentiment" 0 h1 (by rfl))
        (hkey "category" 1 h2 (by rfl))
        (hkey "key_points" 2 h3 (by rfl))
      have htake0 : ∀ j, ((initRowState df).processed.rows.get? j).map
          (List.take df.cols.length) = df.rows.get? j := by
        intro j
        show ((initProcessed df).rows.get? j).map (List.take df.cols.length) = df.rows.get? j
        rw [hfresh]
        show ((df.rows.map (fun row => row ++ [JsonVal.str "neutral", JsonVal.str "other",
          JsonVal.arr []])).get? j).map (List.take df.cols.length) = df.rows.get? j
        rw [List.get?_map]
        cases hg : df.rows.get? j with
        | none => rfl
        | some row =>
          have hlen2 : row.length = df.cols.length := hal row (List.get?_mem hg)
          simp only [Option.map_some', Option.map_map]
          rw [show df.cols.length = row.length from hlen2.symm]
          simp [List.take_left]
      refine ⟨?_, ?_, ?_⟩
      · show st.processed.cols = _
        rw [hcols, hcols0]
      · show st.processed.rows.length = _
        rw [hlen]
        show (initProcessed df).rows.length = df.rows.length
        exact initProcessed_rows_length df
      · intro i
        show (st.processed.rows.get? i).map (List.take df.cols.length) = df.rows.get? i
        rw [htake i, htake0 i]

/-- The concrete result of processing `df1` with the failing capability. -/
def c9res : Results :=
  { sentiment_distribution := [(.str "neutral", 1)],
    category_distribution := [(.str "other", 1)],
    category_summaries := [],
    improvement_suggestions := [],
    processed_data :=
      { cols := [.str "feedback", .str "sentiment", .str "category", .str "key_points"],
        rows := [[.str "great tour experience", .str "neutral", .str "other",
                  .arr [.str "Could not extract key points"]]] } }

/-- Witness for C9's amended theorem at the one-row frame `df1`. -/
theorem c9_amended_frame_effect_witness :
    process_feedback df1 capFail true true false false = .ok c9res
    ∧ c9res.processed_data.cols
        = df1.cols ++ [.str "sentiment", .str "category", .str "key_points"] :=
  ⟨rfl, (c9_amended_frame_effect df1 capFail true true false false c9res
    (by decide : ∀ row ∈ df1.rows, row.length = df1.cols.length)
    (by decide) (by decide) (by decide) rfl).1⟩

/-! ## C1: total safety of the normalizer -/

theorem not_isEmpty_bounds (f : Frame) (h : f.isEmpty = false) :
    1 ≤ f.rows.length ∧ 1 ≤ f.cols.length := by
  unfold Frame.isEmpty at h
  rw [Bool.or_eq_false_iff] at h
  obtain ⟨hr, hc⟩ := h
  rw [List.isEmpty_eq_false_iff_exists_mem] at hr hc
  obtain ⟨x, hx⟩ := hr
  obtain ⟨y, hy⟩ := hc
  exact ⟨List.length_pos.mpr (List.ne_nil_of_mem hx),
    List.length_pos.mpr (List.ne_nil_of_mem hy)⟩

theorem feedbackFrame_bounds (xs : List String) (h : xs ≠ []) :
    1 ≤ (feedbackFrame xs).rows.length ∧ 1 ≤ (feedbackFrame xs).cols.length := by
  constructor
  · show 1 ≤ (xs.map (fun s => [JsonVal.str s])).length
    rw [List.length_map]
    exact List.length_pos.mpr h
  · show 1 ≤ ([ColKey.str "feedback"] : List ColKey).length
    simp

theorem parse_csv_bounds (content : String) (o : Oracles) :
    1 ≤ (parse_csv content o).1.rows.length ∧ 1 ≤ (parse_csv content o).1.cols.length := by
  cases h : o.readCsv content with
  | error e =>
    have heq : parse_csv content o
        = (feedbackFrame ["Error in CSV parsing - this is a placeholder entry"],
          "csv with parsing error") := by
      unfold parse_csv
      rw [h]
    rw [heq]
    exact feedbackFrame_bounds _ (by simp)
  | ok df =>
    have heq : parse_csv content o
        = if df.isEmpty then
            (feedbackFrame ["CSV parsing resulted in no data - please check file format"], "csv")
          else (df, "csv") := by
      unfold parse_csv
      rw [h]
    rw [heq]
    by_cases he : df.isEmpty
    · rw [if_pos he]
      exact feedbackFrame_bounds _ (by simp)
    · rw [if_neg he]
      exact not_isEmpty_bounds df (by simpa using he)

theorem jsonFinalize_bounds (df : Frame) :
    1 ≤ (jsonFinalize df).rows.length ∧ 1 ≤ (jsonFinalize df).cols.length := by
  unfold jsonFinalize
  by_cases he : df.isEmpty
  · rw [if_pos he]
    exact feedbackFrame_bounds _ (by simp)
  · rw [if_neg he]
    exact not_isEmpty_bounds df (by simpa using he)

theorem parseJsonDispatched_bounds (v : JsonVal) :
    1 ≤ (parseJsonDispatched v).1.rows.length ∧ 1 ≤ (parseJsonDispatched v).1.cols.length := by
  unfold parseJsonDispatched
  cases jsonDispatch v with
  | ok df => exact jsonFinalize_bounds df
  | error e => exact feedbackFrame_bounds _ (by simp)

theorem parse_json_bounds (content : String) (o : Oracles) :
    1 ≤ (parse_json content o).1.rows.length ∧ 1 ≤ (parse_json content o).1.cols.length := by
  unfold parse_json
  cases o.jsonLoads content with
  | ok v => exact parseJsonDispatched_bounds v
  | error e =>
    cases o.literalEval content with
    | ok v => exact parseJsonDispatched_bounds v
    | error e2 => exact feedbackFrame_bounds _ (pySplitNl_ne_nil _)

theorem mkTextResult_bounds (ls : List String) :
    1 ≤ (mkTextResult ls).1.rows.length ∧ 1 ≤ (mkTextResult ls).1.cols.length := by
  by_cases h : ls = []
  · subst h
    unfold mkTextResult
    rw [if_pos (by simp [feedbackFrame, Frame.isEmpty])]
    exact feedbackFrame_bounds _ (by simp)
  · rw [mkTextResult_of_ne_nil ls h]
    exact feedbackFrame_bounds ls h

/-- pandas `pd.read_csv` on the raw content `"a,\nb"` (a double quote, then
`a,`, a newline, `b`, a closing double quote): the entire input is a single
quoted CSV record spanning both physical lines; with inferred headers that
record becomes the sole column label and no data rows remain, so the reader
succeeds with a one-column, zero-row frame. -/
def oQuotedCsv : Oracles :=
  { readCsv := fun _ => .error "unused",
    readCsvPlain := fun _ => .ok { cols := [.str "a,\nb"], rows := [] },
    jsonLoads := fun _ => .error "unused",
    literalEval := fun _ => .error "unused" }

/-- C1: refuted — the normalizer can return a zero-row dataset.  On the
text input `"a,\nb"` the stripped non-blank lines are two and the first
contains a comma, so the CSV-like test of `parse_txt` fires and the plain
`pd.read_csv` re-parse of the raw content runs; that re-parse succeeds with
a header-only, zero-row frame (the whole input is one quoted record, taken
as the header), and `parse_txt` returns it with label "csv-like text"
without any `df.empty` check (utils.py line 182, the only return path in
the normalizer with no such guard), so `parse_file` yields a dataset with
zero rows, violating the claimed ≥1-row bound. -/
theorem c1_csv_like_path_returns_zero_rows :
    csvLikeCond (txtLines "\"a,\nb\"") = true
    ∧ parse_file "\"a,\nb\"" "txt" oQuotedCsv
        = ({ cols := [.str "a,\nb"], rows := [] }, "csv-like text")
    ∧ (parse_file "\"a,\nb\"" "txt" oQuotedCsv).1.rows.length = 0 :=
  ⟨by decide, rfl, rfl⟩
